import Mathlib

/-
Verification of the feature-store core (my_feast): a shallow embedding of
the Python sources under src/my_feast, together with theorems settling the
spec claims about the temporal join engine, the in-memory online store,
the materialization coordinator and feature-service validation.

Modelling conventions:
* Python scalar values (cells of a pandas DataFrame, dict values) are the
  inductive `PyVal`; `PyVal.vNone` stands for both Python `None` and the
  pandas missing value NaN.  Timestamps (`datetime`) are integers.
* A Python dict used as a data row is an ordered association list `Row`
  (Python dicts preserve insertion order; assigning to an existing key
  keeps its position, which `rowSet` mirrors).
* A pandas DataFrame is a `Frame`: a column list plus rows that carry a
  value for every column (`mkFrame` mirrors `pd.DataFrame(list_of_dicts)`,
  which unions the keys and fills missing cells with NaN).
* The online store's nested dicts are only ever read by key lookup or
  membership test (never iterated), so they are embedded as functions
  `String → Option _` (`FMap`).
* Python exceptions: read-style operations return `Except String`, the
  error being the exception message; write-style operations that mutate
  state return the post-call state together with `Option String` so that
  state mutated before an exception is preserved, as in Python.
-/

inductive PyVal where
  | vNone
  | vBool (b : Bool)
  | vInt (i : Int)
  | vStr (s : String)
  | vTime (t : Int)
deriving DecidableEq, Repr

abbrev Row := List (String × PyVal)

/-- Python `row[k]` / `dict.get`: first binding of `k` in the ordered dict. -/
def rowGet (r : Row) (k : String) : Option PyVal :=
  match r with
  | [] => none
  | (k', v) :: rest => if k' = k then some v else rowGet rest k

/-- `row[k]` where a pandas row always has every column; a missing key
reads as NaN (`vNone`), matching `pd.DataFrame`'s fill behaviour. -/
def rowGetD (r : Row) (k : String) : PyVal :=
  (rowGet r k).getD PyVal.vNone

/-- Python dict assignment `row[k] = v`: replaces in place, else appends. -/
def rowSet (r : Row) (k : String) (v : PyVal) : Row :=
  match r with
  | [] => [(k, v)]
  | (k', v') :: rest => if k' = k then (k', v) :: rest else (k', v') :: rowSet rest k v

def rowKeys (r : Row) : List String := r.map (·.1)

/-- pandas elementwise `==`: comparisons against NaN are false. -/
def pyEq (a b : PyVal) : Bool :=
  match a, b with
  | PyVal.vNone, _ => false
  | _, PyVal.vNone => false
  | x, y => decide (x = y)

/-- pandas elementwise `<=` on like-typed columns; NaN compares false. -/
def pyLe (a b : PyVal) : Bool :=
  match a, b with
  | PyVal.vTime x, PyVal.vTime y => decide (x ≤ y)
  | PyVal.vInt x, PyVal.vInt y => decide (x ≤ y)
  | _, _ => false

def pyGe (a b : PyVal) : Bool := pyLe b a

/-- Python `str(value)`, as used when building entity keys.  The rendering
of a timestamp is abstracted to its integer; only injectivity matters. -/
def pyStr (v : PyVal) : String :=
  match v with
  | PyVal.vNone => "None"
  | PyVal.vBool true => "True"
  | PyVal.vBool false => "False"
  | PyVal.vInt i => toString i
  | PyVal.vStr s => s
  | PyVal.vTime t => toString t

structure Frame where
  cols : List String
  rows : List Row
deriving DecidableEq, Repr

/-- pandas `df.empty`: true when either axis has length zero. -/
def Frame.isEmpty (f : Frame) : Bool := f.rows.isEmpty || f.cols.isEmpty

/-- `pd.DataFrame(list_of_dicts)`: columns are the union of the dict keys in
order of first appearance; each row is aligned to the columns, missing
cells filled with NaN. -/
def mkFrame (rows : List Row) : Frame :=
  let cols := rows.foldl (fun acc r => acc ++ (rowKeys r).filter (fun k => !acc.contains k)) []
  ⟨cols, rows.map (fun r => cols.map (fun c => (c, rowGetD r c)))⟩

/-- Column projection `df[cs]`. -/
def frameSelect (df : Frame) (cs : List String) : Frame :=
  ⟨cs, df.rows.map (fun r => cs.map (fun c => (c, rowGetD r c)))⟩

/-- Boolean-mask row filter `df[mask]`. -/
def frameFilter (df : Frame) (p : Row → Bool) : Frame :=
  ⟨df.cols, df.rows.filter p⟩

/-- `Series.unique()` over a column: values in order of first appearance. -/
def colUnique (df : Frame) (c : String) : List PyVal :=
  df.rows.foldl (fun acc r => if acc.contains (rowGetD r c) then acc else acc ++ [rowGetD r c]) []

abbrev FMap (α : Type) := String → Option α

def fmEmpty {α : Type} : FMap α := fun _ => none

def fmSet {α : Type} (m : FMap α) (k : String) (v : α) : FMap α :=
  fun k' => if k' = k then some v else m k'

def fmErase {α : Type} (m : FMap α) (k : String) : FMap α :=
  fun k' => if k' = k then none else m k'

/-
Feature metadata model (src/my_feast/core).  Metadata-only fields that no
verified operation reads (descriptions, tags, value types, TTL) are
omitted; `Entity.join_keys` is the value after `__post_init__` resolved
the `None` default to `[name]`.
-/

structure Entity where
  name : String
  join_keys : List String
deriving DecidableEq, Repr

structure Feature where
  name : String
deriving DecidableEq, Repr

structure FeatureReference where
  feature_view_name : String
  feature_name : String
deriving DecidableEq, Repr

/-- `str(FeatureReference)`, the canonical `"view:feature"` form. -/
def refStr (r : FeatureReference) : String :=
  r.feature_view_name ++ ":" ++ r.feature_name

/-- src/my_feast/data_sources/file_source.py.  `data` models the tabular
content of the file at `path`; the concrete pandas readers all produce it. -/
structure FileSource where
  name : String
  path : String
  timestamp_field : Option String
  created_timestamp_column : Option String
  file_format : String
  data : Frame
deriving DecidableEq, Repr

structure FeatureView where
  name : String
  entities : List Entity
  features : List Feature
  source : FileSource
  online : Bool
deriving DecidableEq, Repr

def FeatureView.get_feature_names (fv : FeatureView) : List String :=
  fv.features.map (·.name)

def FeatureView.get_entity_names (fv : FeatureView) : List String :=
  fv.entities.map (·.name)

/-- `list(set(...))` deduplication.  Python's set iteration order is
unspecified; it is determinized here to first-occurrence order. -/
def dedupKeys (l : List String) : List String :=
  l.foldl (fun acc k => if acc.contains k then acc else acc ++ [k]) []

def FeatureView.get_join_keys (fv : FeatureView) : List String :=
  dedupKeys (fv.entities.flatMap (·.join_keys))

/-- `FileSource.read` (file_source.py lines 34-74).  The format dispatch
reads `data`; column projection and the inclusive date-range filter follow
the source, including the errors when a date is given without a declared
or present timestamp field. -/
def FileSource.read (src : FileSource) (start_date end_date : Option Int)
    (columns : Option (List String)) : Except String Frame :=
  if src.file_format = "parquet" || src.file_format = "csv" || src.file_format = "json" then
    let df := src.data
    -- `if columns:` — an empty list is falsy and skips projection
    let df := match columns with
      | some cs =>
        if cs.isEmpty then df
        else
          let available := cs.filter (fun c => df.cols.contains c)
          if available.isEmpty then df else frameSelect df available
      | none => df
    if start_date.isSome || end_date.isSome then
      match src.timestamp_field with
      | none => .error "timestamp_field must be specified for date filtering"
      | some tf =>
        if df.cols.contains tf then
          let df := match start_date with
            | some sd => frameFilter df (fun r => pyGe (rowGetD r tf) (PyVal.vTime sd))
            | none => df
          let df := match end_date with
            | some ed => frameFilter df (fun r => pyLe (rowGetD r tf) (PyVal.vTime ed))
            | none => df
          .ok df
        else .error ("timestamp_field '" ++ tf ++ "' not found in data")
    else .ok df
  else .error ("Unsupported file format: " ++ src.file_format)

/-
Offline store (src/my_feast/offline_store).  `pull_latest_from_table_or_query`
sorts by the timestamp field and keeps `groupby(join_keys).tail(1)`.
-/

/-- The `sort_values(timestamp_field)` comparator: ascending on timestamps,
rows without a timestamp value sort last (`na_position="last"`); the order
among ties is unspecified in pandas and determinized by a stable sort. -/
def tsLeB (tf : String) (a b : Row) : Bool :=
  match rowGet a tf, rowGet b tf with
  | some (PyVal.vTime x), some (PyVal.vTime y) => decide (x ≤ y)
  | some (PyVal.vTime _), _ => true
  | _, some (PyVal.vTime _) => false
  | _, _ => true

def tsRelP (tf : String) : Row → Row → Prop := fun a b => tsLeB tf a b = true

instance (tf : String) : DecidableRel (tsRelP tf) := fun _ _ => decEq _ _

/-- The tuple of join-key values of a row, the `groupby` group identity. -/
def keyTuple (jks : List String) (r : Row) : List (Option PyVal) :=
  jks.map (fun k => rowGet r k)

/-- `groupby` drops rows whose group key contains NaN (`dropna=True`). -/
def validKeysB (jks : List String) (r : Row) : Bool :=
  jks.all (fun k =>
    match rowGet r k with
    | some v => decide (v ≠ PyVal.vNone)
    | none => false)

/-- `groupby(jks).tail(1)`: keep, in frame order, each row that is the last
of its group. -/
def lastOcc (jks : List String) : List Row → List Row
  | [] => []
  | r :: rs =>
    if rs.any (fun x => decide (keyTuple jks x = keyTuple jks r)) then lastOcc jks rs
    else r :: lastOcc jks rs

def groupTail1 (jks : List String) (rows : List Row) : List Row :=
  lastOcc jks (rows.filter (validKeysB jks))

/-- `ParquetOfflineStore.pull_latest_from_table_or_query` (parquet_store.py
lines 35-54).  `sort_values` / `groupby` raise a `KeyError` when a named
column is absent. -/
def pull_latest_from_table_or_query (fv : FeatureView)
    (start_date end_date : Option Int) : Except String Frame :=
  match fv.source.read start_date end_date none with
  | .error e => .error e
  | .ok df =>
    match fv.source.timestamp_field with
    | none => .ok df
    | some tf =>
      if !df.cols.contains tf then .error ("KeyError: " ++ tf)
      else
        match fv.get_join_keys.find? (fun k => !df.cols.contains k) with
        | some k => .error ("KeyError: " ++ k)
        | none =>
          let sorted := List.insertionSort (tsRelP tf) df.rows
          .ok ⟨df.cols, groupTail1 fv.get_join_keys sorted⟩

/-
`get_historical_features` pipeline: OfflineStore base class methods
(offline_store/base.py) with the `_point_in_time_join_with_timestamp`
override of ParquetOfflineStore (parquet_store.py lines 107-162).
-/

/-- `OfflineStore.validate_entity_df` (base.py lines 59-62). -/
def validate_entity_df (entity_df : Frame) : Option String :=
  if entity_df.isEmpty then some "Entity dataframe cannot be empty" else none

/-- `OfflineStore.validate_feature_views` (base.py lines 64-80). -/
def validate_feature_views (feature_views : List FeatureView)
    (feature_refs : List FeatureReference) : Option String :=
  let fv_names := feature_views.map (·.name)
  match feature_refs.find? (fun ref => !fv_names.contains ref.feature_view_name) with
  | some ref => some ("Feature view '" ++ ref.feature_view_name ++ "' not found")
  | none =>
    let rec go : List FeatureReference → Option String
      | [] => none
      | ref :: rest =>
        -- `next(...)` cannot fail here: the first loop checked every name
        match feature_views.find? (fun fv => fv.name = ref.feature_view_name) with
        | none => go rest
        | some fv =>
          if fv.get_feature_names.contains ref.feature_name then go rest
          else some ("Feature '" ++ ref.feature_name ++ "' not found in feature view '"
                      ++ ref.feature_view_name ++ "'")
    go feature_refs

/-- Grouping of references by view name (base.py lines 91-96), with Python
dict insertion-order semantics. -/
def groupRefs (refs : List FeatureReference) : List (String × List String) :=
  refs.foldl
    (fun acc ref =>
      match acc.lookup ref.feature_view_name with
      | some fns =>
        acc.map (fun p =>
          if p.1 = ref.feature_view_name then (p.1, fns ++ [ref.feature_name]) else p)
      | none => acc ++ [(ref.feature_view_name, [ref.feature_name])])
    []

/-- `OfflineStore._get_feature_view_data` (base.py lines 112-132): read the
source in full, then restrict to the join-key values present in the entity
frame. -/
def get_feature_view_data (fv : FeatureView) (entity_df : Frame) : Except String Frame :=
  match fv.source.read none none none with
  | .error e => .error e
  | .ok df =>
    let df := fv.get_join_keys.foldl
      (fun df jk =>
        if entity_df.cols.contains jk then
          let values := colUnique entity_df jk
          if df.cols.contains jk then
            frameFilter df (fun r => values.contains (rowGetD r jk))
          else df
        else df)
      df
    .ok df

/-- `ParquetOfflineStore._point_in_time_join_with_timestamp` (parquet_store.py
lines 107-162).  `entity_df` is the accumulated result frame the caller
passes in; `feature_df` has already been projected by the caller. -/
def point_in_time_join_with_timestamp (entity_df feature_df : Frame)
    (join_keys : List String) (timestamp_field : String) : Frame :=
  let result_rows := entity_df.rows.map (fun entity_row =>
    let entity_features := feature_df.rows.filter (fun fr =>
      join_keys.all (fun jk =>
        if feature_df.cols.contains jk then pyEq (rowGetD fr jk) (rowGetD entity_row jk)
        else true))
    -- `if timestamp_field in entity_row and timestamp_field in feature_df.columns`
    let entity_features :=
      if entity_df.cols.contains timestamp_field && feature_df.cols.contains timestamp_field then
        entity_features.filter (fun fr =>
          pyLe (rowGetD fr timestamp_field) (rowGetD entity_row timestamp_field))
      else entity_features
    if entity_features.isEmpty || feature_df.cols.isEmpty then entity_row
    else
      let latest :=
        if feature_df.cols.contains timestamp_field then
          (List.insertionSort (tsRelP timestamp_field) entity_features).getLastD []
        else entity_features.getLastD []
      feature_df.cols.foldl
        (fun row col =>
          if join_keys.contains col || col = timestamp_field then row
          else rowSet row col (rowGetD latest col))
        entity_row)
  mkFrame result_rows

/-- `entity_df.merge(feature_df, on=join_keys, how="left")`.  Output columns
are the left columns followed by the right non-key columns (the sources
never produce overlapping non-key columns, so no suffixing is modelled). -/
def mergeLeft (entity_df feature_df : Frame) (join_keys : List String) : Frame :=
  let rightCols := feature_df.cols.filter (fun c => !join_keys.contains c)
  let rows := entity_df.rows.flatMap (fun er =>
    let matched := feature_df.rows.filter (fun fr =>
      join_keys.all (fun jk => pyEq (rowGetD er jk) (rowGetD fr jk)))
    if matched.isEmpty then
      [rightCols.foldl (fun row c => rowSet row c PyVal.vNone) er]
    else
      matched.map (fun fr => rightCols.foldl (fun row c => rowSet row c (rowGetD fr c)) er))
  ⟨entity_df.cols ++ rightCols, rows⟩

/-- `OfflineStore._join_feature_view` (base.py lines 134-173).  Note that
the column projection keeps only join keys and requested features, so the
source's timestamp column is dropped before the point-in-time join. -/
def join_feature_view (entity_df feature_df : Frame) (fv : FeatureView)
    (feature_names : List String) : Except String Frame :=
  let join_keys := fv.get_join_keys
  match join_keys.find? (fun jk => !entity_df.cols.contains jk) with
  | some jk => .error ("Join key '" ++ jk ++ "' not found in entity dataframe")
  | none =>
    match join_keys.find? (fun jk => !feature_df.cols.contains jk) with
    | some jk => .error ("Join key '" ++ jk ++ "' not found in feature dataframe")
    | none =>
      let columns_to_select := (join_keys ++ feature_names).filter
        (fun col => feature_df.cols.contains col)
      let feature_df := frameSelect feature_df columns_to_select
      match fv.source.timestamp_field with
      | some tf =>
        if entity_df.cols.contains tf then
          .ok (point_in_time_join_with_timestamp entity_df feature_df join_keys tf)
        else .ok (mergeLeft entity_df feature_df join_keys)
      | none => .ok (mergeLeft entity_df feature_df join_keys)

/-- `OfflineStore.perform_point_in_time_join` (base.py lines 82-110). -/
def perform_point_in_time_join (entity_df : Frame) (feature_views : List FeatureView)
    (feature_refs : List FeatureReference) : Except String Frame :=
  let fv_refs := groupRefs feature_refs
  let rec go (result_df : Frame) : List FeatureView → Except String Frame
    | [] => .ok result_df
    | fv :: rest =>
      match fv_refs.lookup fv.name with
      | none => go result_df rest
      | some feature_names =>
        match get_feature_view_data fv entity_df with
        | .error e => .error e
        | .ok fv_df =>
          if !fv_df.isEmpty then
            match join_feature_view result_df fv_df fv feature_names with
            | .error e => .error e
            | .ok result_df => go result_df rest
          else go result_df rest
  go entity_df feature_views

/-- `ParquetOfflineStore.get_historical_features` (parquet_store.py lines
22-33). -/
def get_historical_features (entity_df : Frame) (feature_views : List FeatureView)
    (feature_refs : List FeatureReference) : Except String Frame :=
  match validate_entity_df entity_df with
  | some e => .error e
  | none =>
    match validate_feature_views feature_views feature_refs with
    | some e => .error e
    | none => perform_point_in_time_join entity_df feature_views feature_refs

/-
Online store (src/my_feast/online_store/memory_store.py and base.py).
-/

/-- `MemoryOnlineStore` state: `_features` and `_timestamps` (memory_store.py
lines 19-26).  All reachable states keep the two maps' view keys in sync;
an inner timestamps map missing for a present view is read as empty. -/
structure OnlineState where
  features : FMap (FMap Row)
  timestamps : FMap (FMap Int)

def OnlineState.empty : OnlineState := ⟨fmEmpty, fmEmpty⟩

/-- Python string `<=`: lexicographic on code points (as `sorted` uses),
implemented on the character list so the kernel can evaluate it. -/
def strLeChars : List Char → List Char → Bool
  | [], _ => true
  | _ :: _, [] => false
  | c :: cs, d :: ds => if c = d then strLeChars cs ds else decide (c.val < d.val)

def strLeP : String → String → Prop := fun a b => strLeChars a.toList b.toList = true

instance : DecidableRel strLeP := fun _ _ => decEq _ _

/-- `MemoryOnlineStore._create_entity_key` (memory_store.py lines 126-131). -/
def create_entity_key (row : Row) (join_keys : List String) : String :=
  String.intercalate "|"
    ((List.insertionSort strLeP join_keys).map
      (fun jk => jk ++ "=" ++ pyStr (rowGetD row jk)))

/-- `OnlineStore.validate_feature_data` (online_store/base.py lines 85-106). -/
def validate_feature_data (fv : FeatureView) (df : Frame) : Option String :=
  match fv.get_join_keys.find? (fun jk => !df.cols.contains jk) with
  | some jk => some ("Join key '" ++ jk ++ "' not found in data")
  | none =>
    let tsOk : Option String :=
      match fv.source.timestamp_field with
      | some tf =>
        if df.cols.contains tf then none
        else some ("Timestamp field '" ++ tf ++ "' not found in data")
      | none => none
    match tsOk with
    | some e => some e
    | none =>
      match fv.get_feature_names.find? (fun f => !df.cols.contains f) with
      | some f => some ("Feature '" ++ f ++ "' not found in data")
      | none => none

/-- `OnlineStore.validate_entity_rows` (online_store/base.py lines 74-83). -/
def validate_entity_rows_from (jks : List String) (i : Nat) : List Row → Option String
  | [] => none
  | r :: rest =>
    match jks.find? (fun jk => (rowGet r jk).isNone) with
    | some jk => some ("Entity row " ++ toString i ++ " missing join key '" ++ jk ++ "'")
    | none => validate_entity_rows_from jks (i + 1) rest

def validate_entity_rows (fv : FeatureView) (entity_rows : List Row) : Option String :=
  validate_entity_rows_from fv.get_join_keys 0 entity_rows

/-- The per-entity record stored by a write: `{f: row[f] for f in
feature_names if f in row}` built in feature-name order (memory_store.py
lines 55-60). -/
def buildRecord (feature_names : List String) (r : Row) : Row :=
  feature_names.foldl
    (fun rec f =>
      match rowGet r f with
      | some v => rowSet rec f v
      | none => rec)
    []

/-- The per-row loop of `write_features` (memory_store.py lines 49-63),
updating the view's `_features` and `_timestamps` inner maps. -/
def writeRows (jks feature_names : List String) (ts : Int)
    (init : FMap Row × FMap Int) (rows : List Row) : FMap Row × FMap Int :=
  rows.foldl
    (fun acc r =>
      let k := create_entity_key r jks
      (fmSet acc.1 k (buildRecord feature_names r), fmSet acc.2 k ts))
    init

/-- `MemoryOnlineStore.write_features` (memory_store.py lines 28-63).
`now` stands for `datetime.now()`, used only when `timestamp` is absent. -/
def write_features (fv : FeatureView) (df : Frame) (timestamp : Option Int)
    (now : Int) (s : OnlineState) : OnlineState × Option String :=
  match validate_feature_data fv df with
  | some e => (s, some e)
  | none =>
    let ts := timestamp.getD now
    let init : FMap Row × FMap Int :=
      if (s.features fv.name).isSome then
        ((s.features fv.name).getD fmEmpty, (s.timestamps fv.name).getD fmEmpty)
      else (fmEmpty, fmEmpty)
    let upd := writeRows fv.get_join_keys fv.get_feature_names ts init df.rows
    (⟨fmSet s.features fv.name upd.1, fmSet s.timestamps fv.name upd.2⟩, none)

/-- `MemoryOnlineStore.read_features` (memory_store.py lines 65-110). -/
def read_features (fv : FeatureView) (entity_rows : List Row)
    (feature_names : Option (List String)) (s : OnlineState) : Except String Frame :=
  match validate_entity_rows fv entity_rows with
  | some e => .error e
  | none =>
    let fns := feature_names.getD fv.get_feature_names
    let jks := fv.get_join_keys
    match s.features fv.name with
    | none => .ok ⟨jks ++ fns, []⟩
    | some fm =>
      let result_rows := entity_rows.map (fun entity_row =>
        let key := create_entity_key entity_row jks
        match fm key with
        | some rec =>
          fns.foldl
            (fun row f =>
              match rowGet rec f with
              | some v => rowSet row f v
              | none => rowSet row f PyVal.vNone)
            entity_row
        | none => fns.foldl (fun row f => rowSet row f PyVal.vNone) entity_row)
      .ok (mkFrame result_rows)

/-- `MemoryOnlineStore.delete_features` (memory_store.py lines 112-118). -/
def delete_features (fv : FeatureView) (s : OnlineState) : OnlineState :=
  ⟨fmErase s.features fv.name, fmErase s.timestamps fv.name⟩

/-- `MemoryOnlineStore.teardown` (memory_store.py lines 120-124). -/
def teardown (_s : OnlineState) : OnlineState := OnlineState.empty

/-
Materialization coordinator (src/my_feast/core/feature_store.py lines
205-277).  The registry is the external Metadata Registry collaborator:
`get_feature_view` resolves by name, `list_feature_views` lists all.
-/

abbrev Registry := List FeatureView

def registryGet (reg : Registry) (n : String) : Option FeatureView :=
  reg.find? (fun fv => fv.name = n)

/-- The name-resolution loop shared by `materialize_incremental` and
`materialize`: the first unknown name raises before anything else runs. -/
def resolveViews (reg : Registry) : List String → Except String (List FeatureView)
  | [] => .ok []
  | n :: rest =>
    match registryGet reg n with
    | none => .error ("Feature view '" ++ n ++ "' not found")
    | some fv =>
      match resolveViews reg rest with
      | .error e => .error e
      | .ok fvs => .ok (fv :: fvs)

/-- The per-view materialization loop shared by both entry points: skip
views with `online = False`, pull, and write non-empty pulls stamped with
`end_date`.  An exception stops the loop but keeps earlier writes. -/
def materializeViews (start_date end_date : Option Int) (ts : Int)
    (s : OnlineState) : List FeatureView → OnlineState × Option String
  | [] => (s, none)
  | fv :: rest =>
    if fv.online then
      match pull_latest_from_table_or_query fv start_date end_date with
      | .error e => (s, some e)
      | .ok df =>
        if !df.isEmpty then
          match write_features fv df (some ts) 0 s with
          | (s', some e) => (s', some e)
          | (s', none) => materializeViews start_date end_date ts s' rest
        else materializeViews start_date end_date ts s rest
    else materializeViews start_date end_date ts s rest

/-- `FeatureStore.materialize_incremental` (feature_store.py lines 205-238).
`if feature_views:` — `None` and the empty list both select all views. -/
def materialize_incremental (reg : Registry) (end_date : Int)
    (feature_views : Option (List String)) (s : OnlineState) : OnlineState × Option String :=
  let fvsE : Except String (List FeatureView) :=
    match feature_views with
    | some names => if names.isEmpty then .ok reg else resolveViews reg names
    | none => .ok reg
  match fvsE with
  | .error e => (s, some e)
  | .ok fvs => materializeViews none (some end_date) end_date s fvs

/-- `FeatureStore.materialize` (feature_store.py lines 240-277). -/
def materialize (reg : Registry) (start_date end_date : Int)
    (feature_views : Option (List String)) (s : OnlineState) : OnlineState × Option String :=
  let fvsE : Except String (List FeatureView) :=
    match feature_views with
    | some names => if names.isEmpty then .ok reg else resolveViews reg names
    | none => .ok reg
  match fvsE with
  | .error e => (s, some e)
  | .ok fvs => materializeViews (some start_date) (some end_date) end_date s fvs

/-
Feature service (src/my_feast/core/feature_service.py) and the validation
of its member objects (feature_view.py, feature.py, entity.py,
file_source.py `validate`).  `fsys` is the set of existing file paths,
modelling `os.path.exists`.
-/

/-- The heterogeneous member list of a `FeatureService`: a view object, a
reference object, or a `"view:feature"` string. -/
inductive FSMember where
  | view (fv : FeatureView)
  | ref (r : FeatureReference)
  | str (s : String)
deriving DecidableEq, Repr

structure FeatureService where
  name : String
  features : List FSMember
deriving DecidableEq, Repr

/-- Python `s.split(":", 1)`: split at the first colon only (implemented on
the character list so the kernel can evaluate it). -/
def splitFirstColonAux (acc : List Char) : List Char → Option (String × String)
  | [] => none
  | c :: rest =>
    if c = ':' then some (⟨acc.reverse⟩, ⟨rest⟩)
    else splitFirstColonAux (c :: acc) rest

def splitFirstColon (s : String) : Option (String × String) :=
  splitFirstColonAux [] s.toList

/-- `FeatureService.get_feature_references` (feature_service.py lines 33-60). -/
def get_feature_references : List FSMember → Except String (List FeatureReference)
  | [] => .ok []
  | m :: rest =>
    let headE : Except String (List FeatureReference) :=
      match m with
      | FSMember.view fv =>
        .ok (fv.get_feature_names.map (fun fn => ⟨fv.name, fn⟩))
      | FSMember.ref r => .ok [r]
      | FSMember.str s =>
        match splitFirstColon s with
        | some (a, b) => .ok [⟨a, b⟩]
        | none => .error ("Invalid feature reference format: " ++ s)
    match headE with
    | .error e => .error e
    | .ok hs =>
      match get_feature_references rest with
      | .error e => .error e
      | .ok ts => .ok (hs ++ ts)

/-- `Entity.validate` (entity.py lines 56-63); the join keys are strings by
construction, so the `isinstance` check never fires. -/
def entityValidate (e : Entity) : Option String :=
  if e.name = "" then some "Entity name cannot be empty"
  else if e.join_keys.isEmpty then some "Entity must have at least one join key"
  else none

/-- `name.replace("_","").replace("-","").isalnum()` — Python's `isalnum`
is false on the empty string (ASCII alphanumerics modelled). -/
def featureNameAlnum (n : String) : Bool :=
  let stripped := n.toList.filter (fun c => c ≠ '_' && c ≠ '-')
  !stripped.isEmpty && stripped.all (fun c => c.isAlphanum)

/-- `Feature.validate` (feature.py lines 51-60); the dtype is a `ValueType`
by construction. -/
def featureValidate (f : Feature) : Option String :=
  if f.name = "" then some "Feature name cannot be empty"
  else if !featureNameAlnum f.name then
    some "Feature name must contain only alphanumeric characters, hyphens, and underscores"
  else none

/-- `FileSource.validate` (file_source.py lines 98-105). -/
def fileSourceValidate (fsys : List String) (src : FileSource) : Option String :=
  if src.path = "" then some "File path cannot be empty"
  else if !fsys.contains src.path then some ("File does not exist: " ++ src.path)
  else if !(src.file_format = "parquet" || src.file_format = "csv" || src.file_format = "json")
  then some ("Unsupported file format: " ++ src.file_format)
  else none

/-- First error among a list of checks, mirroring a Python loop that raises
at the first offending element. -/
def findFirstErr {α : Type} (f : α → Option String) : List α → Option String
  | [] => none
  | a :: rest =>
    match f a with
    | some e => some e
    | none => findFirstErr f rest

/-- `FeatureView.validate` (feature_view.py lines 111-141); the `source`
field is a required object, so `if not self.source` never fires. -/
def featureViewValidate (fsys : List String) (fv : FeatureView) : Option String :=
  if fv.name = "" then some "FeatureView name cannot be empty"
  else if fv.entities.isEmpty then some "FeatureView must have at least one entity"
  else if fv.features.isEmpty then some "FeatureView must have at least one feature"
  else
    match findFirstErr entityValidate fv.entities with
    | some e => some e
    | none =>
      match findFirstErr featureValidate fv.features with
      | some e => some e
      | none =>
        match fileSourceValidate fsys fv.source with
        | some e => some e
        | none =>
          if fv.get_feature_names.dedup.length ≠ fv.get_feature_names.length then
            some "Feature names must be unique within a FeatureView"
          else if fv.get_entity_names.dedup.length ≠ fv.get_entity_names.length then
            some "Entity names must be unique within a FeatureView"
          else none

/-- The per-member validity loop of `FeatureService.validate`
(feature_service.py lines 141-157). -/
def validateMember (fsys : List String) (m : FSMember) : Option String :=
  match m with
  | FSMember.view fv => featureViewValidate fsys fv
  | FSMember.ref r =>
    if r.feature_view_name = "" then some "FeatureReference must have a feature_view_name"
    else if r.feature_name = "" then some "FeatureReference must have a feature_name"
    else none
  | FSMember.str s =>
    if s = "" then some "String feature reference cannot be empty"
    else if !(s.toList.contains ':') then
      some "String feature reference must be in format 'feature_view:feature_name'"
    else none

/-- `FeatureService.validate` (feature_service.py lines 133-166). -/
def feature_service_validate (fsys : List String) (svc : FeatureService) :
    Except String Unit :=
  if svc.name = "" then .error "FeatureService name cannot be empty"
  else if svc.features.isEmpty then .error "FeatureService must have at least one feature"
  else
    match findFirstErr (validateMember fsys) svc.features with
    | some e => .error e
    | none =>
      match get_feature_references svc.features with
      | .error e => .error e
      | .ok refs =>
        let reference_strings := refs.map refStr
        if reference_strings.dedup.length ≠ reference_strings.length then
          .error "Feature references must be unique within a FeatureService"
        else .ok ()

/-
Concrete fixtures, following the spec's driver_stats scenario (§8): one
entity with join key driver_id, feature conv_rate, and a source with a
declared event_timestamp field.  Rates are scaled to integers (0.80 ↦ 80).
-/

def driverEntity : Entity := ⟨"driver_id", ["driver_id"]⟩

def convRateFeature : Feature := ⟨"conv_rate"⟩

/-- Source with driver 1001 at conv_rate 80 (t = 1) and 85 (t = 5). -/
def driverSourceTwo : FileSource :=
  ⟨"driver_stats_source", "driver_stats.parquet", some "event_timestamp", none, "parquet",
   ⟨["driver_id", "conv_rate", "event_timestamp"],
    [[("driver_id", PyVal.vInt 1001), ("conv_rate", PyVal.vInt 80),
      ("event_timestamp", PyVal.vTime 1)],
     [("driver_id", PyVal.vInt 1001), ("conv_rate", PyVal.vInt 85),
      ("event_timestamp", PyVal.vTime 5)]]⟩⟩

def driverViewTwo : FeatureView :=
  ⟨"driver_stats", [driverEntity], [convRateFeature], driverSourceTwo, true⟩

/-- Entity frame: driver 1001 with as-of timestamp 2 (between the two
source timestamps). -/
def driverEntityDf : Frame :=
  ⟨["driver_id", "event_timestamp"],
   [[("driver_id", PyVal.vInt 1001), ("event_timestamp", PyVal.vTime 2)]]⟩

def convRateRef : FeatureReference := ⟨"driver_stats", "conv_rate"⟩

/-- Claim C1: `getHistoricalFeatures` never attaches a feature value whose
source timestamp exceeds the entity row's as-of timestamp.  The code
violates this: `_join_feature_view` projects the feature frame down to
join keys and requested features before calling
`_point_in_time_join_with_timestamp`, so the timestamp column is gone and
the `<=` filter inside the join never runs.  At as-of 2 the result carries
conv_rate 85, which only exists in the source row stamped 5 > 2 (the value
in effect at time 2 is 80). -/
theorem c1_look_ahead_leak :
    get_historical_features driverEntityDf [driverViewTwo] [convRateRef] =
      Except.ok ⟨["driver_id", "event_timestamp", "conv_rate"],
        [[("driver_id", PyVal.vInt 1001), ("event_timestamp", PyVal.vTime 2),
          ("conv_rate", PyVal.vInt 85)]]⟩ ∧
    pyLe (PyVal.vTime 5) (PyVal.vTime 2) = false ∧
    (∀ r ∈ driverSourceTwo.data.rows,
      pyLe (rowGetD r "event_timestamp") (PyVal.vTime 2) = true →
        rowGetD r "conv_rate" ≠ PyVal.vInt 85) := by
  refine ⟨by rfl, by decide, by decide⟩

/-- Source holding only a record stamped after the query's as-of time. -/
def driverSourceLate : FileSource :=
  ⟨"driver_stats_source", "driver_stats.parquet", some "event_timestamp", none, "parquet",
   ⟨["driver_id", "conv_rate", "event_timestamp"],
    [[("driver_id", PyVal.vInt 1001), ("conv_rate", PyVal.vInt 85),
      ("event_timestamp", PyVal.vTime 5)]]⟩⟩

def driverViewLate : FeatureView :=
  ⟨"driver_stats", [driverEntity], [convRateFeature], driverSourceLate, true⟩

/-- Claim C2: an entity row with no matching source row (none with equal
join keys and timestamp ≤ the as-of time) must carry null for every
requested feature.  The code violates this via the same dropped timestamp
column as C1: for driver 1001 at as-of 2 the only source row is stamped
5 > 2, so there is no match in the claim's sense, yet the result carries
that row's conv_rate 85 instead of null. -/
theorem c2_no_match_not_null :
    get_historical_features driverEntityDf [driverViewLate] [convRateRef] =
      Except.ok ⟨["driver_id", "event_timestamp", "conv_rate"],
        [[("driver_id", PyVal.vInt 1001), ("event_timestamp", PyVal.vTime 2),
          ("conv_rate", PyVal.vInt 85)]]⟩ ∧
    (∀ r ∈ driverSourceLate.data.rows,
      ¬(pyEq (rowGetD r "driver_id") (PyVal.vInt 1001) = true ∧
        pyLe (rowGetD r "event_timestamp") (PyVal.vTime 2) = true)) ∧
    PyVal.vInt 85 ≠ PyVal.vNone := by
  refine ⟨by rfl, by decide, by decide⟩

/-
Lemmas about the `sort_values` comparator and `groupby(...).tail(1)`.
-/

/-- The sort key of a row: its timestamp when present, `none` otherwise. -/
def tsRank (tf : String) (r : Row) : Option Int :=
  match rowGet r tf with
  | some (PyVal.vTime t) => some t
  | _ => none

theorem tsLeB_eq_rank (tf : String) (a b : Row) :
    tsLeB tf a b =
      (match tsRank tf a, tsRank tf b with
       | some x, some y => decide (x ≤ y)
       | some _, none => true
       | none, some _ => false
       | none, none => true) := by
  unfold tsLeB tsRank
  cases rowGet a tf with
  | none =>
    cases rowGet b tf with
    | none => rfl
    | some w => cases w <;> rfl
  | some v =>
    cases rowGet b tf with
    | none => cases v <;> rfl
    | some w => cases v <;> cases w <;> rfl

theorem tsLeB_refl (tf : String) (a : Row) : tsLeB tf a a = true := by
  rw [tsLeB_eq_rank]
  cases tsRank tf a with
  | none => rfl
  | some x => simp

theorem tsLeB_total (tf : String) (a b : Row) :
    tsLeB tf a b = true ∨ tsLeB tf b a = true := by
  rw [tsLeB_eq_rank, tsLeB_eq_rank]
  cases tsRank tf a with
  | none => cases tsRank tf b with
    | none => simp
    | some y => simp
  | some x =>
    cases tsRank tf b with
    | none => simp
    | some y => simp; omega

theorem tsLeB_trans (tf : String) {a b c : Row} (h1 : tsLeB tf a b = true)
    (h2 : tsLeB tf b c = true) : tsLeB tf a c = true := by
  rw [tsLeB_eq_rank] at h1 h2 ⊢
  cases ha : tsRank tf a <;> cases hb : tsRank tf b <;> cases hc : tsRank tf c <;>
    simp_all <;> omega

instance (tf : String) : IsTotal Row (tsRelP tf) := ⟨fun a b => tsLeB_total tf a b⟩

instance (tf : String) : IsTrans Row (tsRelP tf) :=
  ⟨fun _ _ _ h1 h2 => tsLeB_trans tf h1 h2⟩

theorem lastOcc_subset (jks : List String) :
    ∀ {l : List Row} {x : Row}, x ∈ lastOcc jks l → x ∈ l := by
  intro l
  induction l with
  | nil => intro x hx; simp [lastOcc] at hx
  | cons r rs ih =>
    intro x hx
    cases h : rs.any (fun z => decide (keyTuple jks z = keyTuple jks r)) with
    | true =>
      simp only [lastOcc, h, if_true] at hx
      exact List.mem_cons_of_mem r (ih hx)
    | false =>
      simp only [lastOcc, h] at hx
      rcases List.mem_cons.1 hx with h1 | h1
      · exact h1 ▸ List.mem_cons_self r rs
      · exact List.mem_cons_of_mem r (ih h1)

theorem lastOcc_keys_nodup (jks : List String) :
    ∀ l : List Row, ((lastOcc jks l).map (keyTuple jks)).Nodup := by
  intro l
  induction l with
  | nil => simp [lastOcc]
  | cons r rs ih =>
    cases h : rs.any (fun z => decide (keyTuple jks z = keyTuple jks r)) with
    | true => simpa only [lastOcc, h, if_true] using ih
    | false =>
      simp only [lastOcc, h, Bool.false_eq_true, if_false, List.map_cons, List.nodup_cons]
      refine ⟨?_, ih⟩
      intro hmem
      rcases List.mem_map.1 hmem with ⟨z, hz, hzk⟩
      have hzr : z ∈ rs := lastOcc_subset jks hz
      have hany : rs.any (fun z => decide (keyTuple jks z = keyTuple jks r)) = true :=
        List.any_eq_true.2 ⟨z, hzr, by simpa using hzk⟩
      rw [h] at hany
      exact Bool.false_ne_true hany

theorem lastOcc_complete (jks : List String) :
    ∀ {l : List Row} {y : Row}, y ∈ l →
      ∃ x ∈ lastOcc jks l, keyTuple jks x = keyTuple jks y := by
  intro l
  induction l with
  | nil => intro y hy; simp at hy
  | cons r rs ih =>
    intro y hy
    cases h : rs.any (fun z => decide (keyTuple jks z = keyTuple jks r)) with
    | true =>
      simp only [lastOcc, h, if_true]
      rcases List.mem_cons.1 hy with h1 | h1
      · rcases List.any_eq_true.1 h with ⟨z, hz, hzk⟩
        rcases ih hz with ⟨x, hx, hxz⟩
        refine ⟨x, hx, ?_⟩
        rw [hxz]
        subst h1
        simpa using hzk
      · exact ih h1
    | false =>
      simp only [lastOcc, h, Bool.false_eq_true, if_false]
      rcases List.mem_cons.1 hy with h1 | h1
      · exact ⟨r, List.mem_cons_self _ _, by rw [h1]⟩
      · rcases ih h1 with ⟨x, hx, hxz⟩
        exact ⟨x, List.mem_cons_of_mem r hx, hxz⟩

theorem lastOcc_max (jks : List String) (tf : String) :
    ∀ {l : List Row}, List.Pairwise (tsRelP tf) l →
      ∀ {x : Row}, x ∈ lastOcc jks l → ∀ {y : Row}, y ∈ l →
        keyTuple jks y = keyTuple jks x → tsLeB tf y x = true := by
  intro l
  induction l with
  | nil => intro _ x hx; simp [lastOcc] at hx
  | cons r rs ih =>
    intro hp x hx y hy hk
    have hhead : ∀ z ∈ rs, tsRelP tf r z := fun z hz => List.rel_of_pairwise_cons hp hz
    have htail : List.Pairwise (tsRelP tf) rs := List.Pairwise.of_cons hp
    cases h : rs.any (fun z => decide (keyTuple jks z = keyTuple jks r)) with
    | true =>
      simp only [lastOcc, h, if_true] at hx
      rcases List.mem_cons.1 hy with h1 | h1
      · subst h1
        exact hhead x (lastOcc_subset jks hx)
      · exact ih htail hx h1 hk
    | false =>
      simp only [lastOcc, h, Bool.false_eq_true, if_false] at hx
      have hnone : ∀ z ∈ rs, keyTuple jks z ≠ keyTuple jks r := by
        intro z hz hzk
        have hany : rs.any (fun z => decide (keyTuple jks z = keyTuple jks r)) = true :=
          List.any_eq_true.2 ⟨z, hz, by simpa using hzk⟩
        rw [h] at hany
        exact Bool.false_ne_true hany
      rcases List.mem_cons.1 hx with h1 | h1
      · subst h1
        rcases List.mem_cons.1 hy with h2 | h2
        · subst h2; exact tsLeB_refl tf y
        · exact absurd hk (hnone y h2)
      · rcases List.mem_cons.1 hy with h2 | h2
        · subst h2
          exact absurd hk.symm (hnone x (lastOcc_subset jks h1))
        · exact ih htail h1 h2 hk

/-- Rows surviving `FileSource.read` satisfy the inclusive date bounds on
the declared timestamp field. -/
theorem read_rows_in_bounds (src : FileSource) (sd ed : Option Int) (tf : String)
    (htf : src.timestamp_field = some tf) (df : Frame)
    (hread : src.read sd ed none = Except.ok df) :
    ∀ r ∈ df.rows,
      (∀ s0, sd = some s0 → pyGe (rowGetD r tf) (PyVal.vTime s0) = true) ∧
      (∀ e0, ed = some e0 → pyLe (rowGetD r tf) (PyVal.vTime e0) = true) := by
  cases sd with
  | none =>
    cases ed with
    | none =>
      intro r _
      exact ⟨fun _ hs0 => Option.noConfusion hs0, fun _ he0 => Option.noConfusion he0⟩
    | some e0 =>
      simp only [FileSource.read, htf, Option.isSome_some, Option.isSome_none,
        Bool.or_true, if_true] at hread
      split at hread
      · split at hread
        · simp only [Except.ok.injEq] at hread
          subst hread
          intro r hr
          simp only [frameFilter, List.mem_filter] at hr
          exact ⟨fun _ hs0 => Option.noConfusion hs0,
                 fun e1 he1 => Option.some.inj he1 ▸ hr.2⟩
        · exact Except.noConfusion hread
      · exact Except.noConfusion hread
  | some s0 =>
    cases ed with
    | none =>
      simp only [FileSource.read, htf, Option.isSome_some, Option.isSome_none,
        Bool.true_or, if_true] at hread
      split at hread
      · split at hread
        · simp only [Except.ok.injEq] at hread
          subst hread
          intro r hr
          simp only [frameFilter, List.mem_filter] at hr
          exact ⟨fun s1 hs1 => Option.some.inj hs1 ▸ hr.2,
                 fun _ he1 => Option.noConfusion he1⟩
        · exact Except.noConfusion hread
      · exact Except.noConfusion hread
    | some e0 =>
      simp only [FileSource.read, htf, Option.isSome_some, Bool.true_or,
        if_true] at hread
      split at hread
      · split at hread
        · simp only [Except.ok.injEq] at hread
          subst hread
          intro r hr
          simp only [frameFilter, List.mem_filter] at hr
          exact ⟨fun s1 hs1 => Option.some.inj hs1 ▸ hr.1.2,
                 fun e1 he1 => Option.some.inj he1 ▸ hr.2⟩
        · exact Except.noConfusion hread
      · exact Except.noConfusion hread

def plainSource : FileSource :=
  ⟨"plain_source", "plain.parquet", none, none, "parquet",
   ⟨["driver_id", "conv_rate"],
    [[("driver_id", PyVal.vInt 1), ("conv_rate", PyVal.vInt 7)]]⟩⟩

def plainView : FeatureView :=
  ⟨"plain_view", [driverEntity], [convRateFeature], plainSource, true⟩

/-- Claim C3 counterexample: for a view whose source declares no timestamp
field, `pullLatestFromSource` with a start date raises
`ValueError("timestamp_field must be specified for date filtering")`
instead of returning the date-filtered rows unchanged without error. -/
theorem c3_counterexample :
    plainView.source.timestamp_field = none ∧
    pull_latest_from_table_or_query plainView (some 0) none =
      Except.error "timestamp_field must be specified for date filtering" :=
  ⟨rfl, rfl⟩

/-- Claim C3 (amended): when the view's source declares a timestamp field
and the read succeeds, `pullLatestFromSource` keeps, per distinct
(non-null) join-key combination, exactly one of the date-filtered rows,
with maximal timestamp in its group, the date filter being inclusive on
both bounds; when no timestamp field is declared and no date bound is
given it returns the source rows unchanged without error; but when a date
bound is supplied without a declared timestamp field the call fails with
`ValueError` instead of returning rows. -/
theorem c3_pull_latest (fv : FeatureView) (sd ed : Option Int) (tf : String)
    (df : Frame) :
    (fv.source.timestamp_field = none →
      (fv.source.file_format = "parquet" || fv.source.file_format = "csv" ||
        fv.source.file_format = "json") = true →
      pull_latest_from_table_or_query fv none none = Except.ok fv.source.data) ∧
    (fv.source.timestamp_field = none → (sd.isSome || ed.isSome) = true →
      pull_latest_from_table_or_query fv sd ed =
        Except.error "timestamp_field must be specified for date filtering" ∨
      pull_latest_from_table_or_query fv sd ed =
        Except.error ("Unsupported file format: " ++ fv.source.file_format)) ∧
    (fv.source.timestamp_field = some tf →
      fv.source.read sd ed none = Except.ok df →
      df.cols.contains tf = true →
      (∀ k ∈ fv.get_join_keys, df.cols.contains k = true) →
      (∀ r ∈ df.rows, validKeysB fv.get_join_keys r = true) →
      ∃ res, pull_latest_from_table_or_query fv sd ed = Except.ok res ∧
        (∀ r ∈ res.rows, r ∈ df.rows ∧
          (∀ s0, sd = some s0 → pyGe (rowGetD r tf) (PyVal.vTime s0) = true) ∧
          (∀ e0, ed = some e0 → pyLe (rowGetD r tf) (PyVal.vTime e0) = true)) ∧
        (res.rows.map (keyTuple fv.get_join_keys)).Nodup ∧
        (∀ r ∈ df.rows, ∃ r2 ∈ res.rows,
          keyTuple fv.get_join_keys r2 = keyTuple fv.get_join_keys r) ∧
        (∀ r2 ∈ res.rows, ∀ r ∈ df.rows,
          keyTuple fv.get_join_keys r = keyTuple fv.get_join_keys r2 →
          ∀ t t2, rowGet r tf = some (PyVal.vTime t) →
            rowGet r2 tf = some (PyVal.vTime t2) → t ≤ t2)) := by
  refine ⟨?_, ?_, ?_⟩
  · intro htf hfmt
    unfold pull_latest_from_table_or_query FileSource.read
    rw [htf, if_pos hfmt]
    rfl
  · intro htf _hdates
    unfold pull_latest_from_table_or_query FileSource.read
    rw [htf]
    by_cases hfmt : (fv.source.file_format = "parquet" || fv.source.file_format = "csv" ||
        fv.source.file_format = "json") = true
    · rw [if_pos hfmt, if_pos _hdates]
      exact Or.inl rfl
    · rw [if_neg hfmt]
      exact Or.inr rfl
  · intro htf hread hcont hjks hvalid
    have hfind : fv.get_join_keys.find? (fun k => !df.cols.contains k) = none := by
      apply List.find?_eq_none.2
      intro k hk
      rw [hjks k hk]
      decide
    have hpull : pull_latest_from_table_or_query fv sd ed =
        Except.ok ⟨df.cols, groupTail1 fv.get_join_keys
          (List.insertionSort (tsRelP tf) df.rows)⟩ := by
      unfold pull_latest_from_table_or_query
      simp only [hread, htf, hcont, hfind, Bool.not_true, Bool.false_eq_true, if_false]
    have hperm : List.Perm (List.insertionSort (tsRelP tf) df.rows) df.rows :=
      List.perm_insertionSort (tsRelP tf) df.rows
    have hfilter_eq : (List.insertionSort (tsRelP tf) df.rows).filter
        (validKeysB fv.get_join_keys) = List.insertionSort (tsRelP tf) df.rows := by
      apply List.filter_eq_self.2
      intro r hr
      exact hvalid r (hperm.subset hr)
    have hpair : List.Pairwise (tsRelP tf) (List.insertionSort (tsRelP tf) df.rows) :=
      List.sorted_insertionSort (tsRelP tf) df.rows
    have hgt : groupTail1 fv.get_join_keys (List.insertionSort (tsRelP tf) df.rows) =
        lastOcc fv.get_join_keys (List.insertionSort (tsRelP tf) df.rows) := by
      rw [groupTail1, hfilter_eq]
    refine ⟨_, hpull, ?_, ?_, ?_, ?_⟩
    · intro r hr
      rw [hgt] at hr
      have hr2 : r ∈ List.insertionSort (tsRelP tf) df.rows :=
        lastOcc_subset fv.get_join_keys hr
      have hmem : r ∈ df.rows := hperm.subset hr2
      exact ⟨hmem, (read_rows_in_bounds fv.source sd ed tf htf df hread r hmem).1,
             (read_rows_in_bounds fv.source sd ed tf htf df hread r hmem).2⟩
    · rw [hgt]
      exact lastOcc_keys_nodup fv.get_join_keys _
    · intro r hmem
      have hr2 : r ∈ List.insertionSort (tsRelP tf) df.rows := hperm.mem_iff.2 hmem
      rcases lastOcc_complete fv.get_join_keys hr2 with ⟨x, hx, hxk⟩
      rw [hgt]
      exact ⟨x, hx, hxk⟩
    · intro r2 hr2 r hmem hk t t2 ht ht2
      rw [hgt] at hr2
      have hr3 : r ∈ List.insertionSort (tsRelP tf) df.rows := hperm.mem_iff.2 hmem
      have hmax : tsLeB tf r r2 = true := lastOcc_max fv.get_join_keys tf hpair hr2 hr3 hk
      rw [tsLeB_eq_rank] at hmax
      unfold tsRank at hmax
      rw [ht, ht2] at hmax
      simpa using hmax

/-- Witness for C3: the amended theorem applied to the concrete driver_stats
view (timestamp field declared, end date 10) and to the plain view with no
timestamp field and no dates. -/
theorem c3_pull_latest_witness :
    (∃ res, pull_latest_from_table_or_query driverViewTwo none (some 10) = Except.ok res ∧
      (∀ r ∈ res.rows, r ∈ driverSourceTwo.data.rows ∧
        (∀ s0, (none : Option Int) = some s0 →
          pyGe (rowGetD r "event_timestamp") (PyVal.vTime s0) = true) ∧
        (∀ e0, (some 10 : Option Int) = some e0 →
          pyLe (rowGetD r "event_timestamp") (PyVal.vTime e0) = true)) ∧
      (res.rows.map (keyTuple driverViewTwo.get_join_keys)).Nodup ∧
      (∀ r ∈ driverSourceTwo.data.rows, ∃ r2 ∈ res.rows,
        keyTuple driverViewTwo.get_join_keys r2 = keyTuple driverViewTwo.get_join_keys r) ∧
      (∀ r2 ∈ res.rows, ∀ r ∈ driverSourceTwo.data.rows,
        keyTuple driverViewTwo.get_join_keys r = keyTuple driverViewTwo.get_join_keys r2 →
        ∀ t t2, rowGet r "event_timestamp" = some (PyVal.vTime t) →
          rowGet r2 "event_timestamp" = some (PyVal.vTime t2) → t ≤ t2)) ∧
    plainView.source.timestamp_field = none ∧
    pull_latest_from_table_or_query plainView none none = Except.ok plainView.source.data :=
  ⟨(c3_pull_latest driverViewTwo none (some 10) "event_timestamp"
      driverSourceTwo.data).2.2 (by rfl) (by rfl) (by decide) (by decide) (by decide),
   by rfl,
   (c3_pull_latest plainView none none "x" ⟨[], []⟩).1 (by rfl) (by decide)⟩

/-
Row / record lookup lemmas for the online store.
-/

theorem rowGet_rowSet_self (r : Row) (k : String) (v : PyVal) :
    rowGet (rowSet r k v) k = some v := by
  induction r with
  | nil => simp [rowSet, rowGet]
  | cons p rest ih =>
    by_cases h : p.1 = k
    · simp [rowSet, rowGet, h]
    · simp [rowSet, rowGet, h, ih]

theorem rowGet_rowSet_ne (r : Row) (k k' : String) (v : PyVal) (h : k' ≠ k) :
    rowGet (rowSet r k v) k' = rowGet r k' := by
  induction r with
  | nil =>
    have h2 : ¬k = k' := fun hh => h hh.symm
    simp [rowSet, rowGet, h2]
  | cons p rest ih =>
    by_cases h1 : p.1 = k
    · simp [rowSet, rowGet, h1, Ne.symm h]
    · by_cases h2 : p.1 = k'
      · simp [rowSet, rowGet, h1, h2, h]
      · simp [rowSet, rowGet, h1, h2, ih]

/-- Two rows agreeing on every join key produce the same entity key. -/
theorem create_entity_key_congr (jks : List String) {r1 r2 : Row}
    (h : ∀ k ∈ jks, rowGet r1 k = rowGet r2 k) :
    create_entity_key r1 jks = create_entity_key r2 jks := by
  unfold create_entity_key
  congr 1
  apply List.map_congr_left
  intro k hk
  have hmem : k ∈ jks :=
    (List.perm_insertionSort strLeP jks).subset hk
  rw [rowGetD, rowGetD, h k hmem]

/-- Claim C7: online-store key construction is commutative in the entity
row's column order — any two rows mapping the same join-key names to the
same values produce the same entity key (join keys sorted
lexicographically, `"<name>=<value>"` segments joined by `"|"`), and thus
address the same stored record. -/
theorem c7_entity_key_order_independent (jks : List String) (r1 r2 : Row)
    (h : ∀ k ∈ jks, rowGet r1 k = rowGet r2 k) :
    create_entity_key r1 jks = create_entity_key r2 jks :=
  create_entity_key_congr jks h

/-- Witness for C7: `{a:1, b:2}` and `{b:2, a:1}` produce the key
`"a=1|b=2"` regardless of column order. -/
theorem c7_entity_key_witness :
    create_entity_key [("a", PyVal.vInt 1), ("b", PyVal.vInt 2)] ["b", "a"] =
      create_entity_key [("b", PyVal.vInt 2), ("a", PyVal.vInt 1)] ["b", "a"] ∧
    create_entity_key [("a", PyVal.vInt 1), ("b", PyVal.vInt 2)] ["b", "a"] = "a=1|b=2" :=
  ⟨c7_entity_key_order_independent ["b", "a"] _ _ (by decide), by decide⟩

/-
Lookup lemmas for the folds inside `write_features` / `read_features`.
-/

theorem rowGet_isSome_iff (r : Row) (k : String) :
    (rowGet r k).isSome = true ↔ k ∈ rowKeys r := by
  induction r with
  | nil => simp [rowGet, rowKeys]
  | cons p rest ih =>
    by_cases h : p.1 = k
    · simp [rowGet, rowKeys, h]
    · simp [rowGet, rowKeys, h, ih, Ne.symm h]

/-- Value of a feature in the record built by a write: present exactly when
the feature name occurs in the list and the row carries it. -/
theorem rowGet_buildRecord_from (fns : List String) (r : Row) :
    ∀ (acc : Row) (f : String),
      rowGet (fns.foldl
        (fun rec f' =>
          match rowGet r f' with
          | some v => rowSet rec f' v
          | none => rec) acc) f =
      if f ∈ fns ∧ (rowGet r f).isSome = true then rowGet r f else rowGet acc f := by
  induction fns with
  | nil => intro acc f; simp
  | cons f' rest ih =>
    intro acc f
    rw [List.foldl_cons, ih]
    by_cases hmem : f ∈ rest ∧ (rowGet r f).isSome = true
    · rw [if_pos hmem, if_pos ⟨List.mem_cons_of_mem f' hmem.1, hmem.2⟩]
    · rw [if_neg hmem]
      by_cases hf : f = f'
      · subst hf
        cases hr : rowGet r f with
        | some v =>
          rw [if_pos ⟨List.mem_cons_self f rest, rfl⟩]
          simpa using rowGet_rowSet_self acc f v
        | none => simp [hr]
      · have hcond : ¬(f ∈ f' :: rest ∧ (rowGet r f).isSome = true) := by
          rintro ⟨hin, hs⟩
          rcases List.mem_cons.1 hin with h1 | h1
          · exact hf h1
          · exact hmem ⟨h1, hs⟩
        rw [if_neg hcond]
        cases hr : rowGet r f' with
        | some v => simpa using rowGet_rowSet_ne acc f' f v hf
        | none => rfl

theorem rowGet_buildRecord (fns : List String) (r : Row) (f : String) :
    rowGet (buildRecord fns r) f =
      if f ∈ fns ∧ (rowGet r f).isSome = true then rowGet r f else none :=
  rowGet_buildRecord_from fns r [] f

/-- Value of a feature in a result row assembled by `read_features` when
the entity's record was found. -/
theorem rowGet_read_fold (fns : List String) (rec : Row) :
    ∀ (acc : Row) (f : String),
      rowGet (fns.foldl
        (fun row f' =>
          match rowGet rec f' with
          | some v => rowSet row f' v
          | none => rowSet row f' PyVal.vNone) acc) f =
      if f ∈ fns then some (rowGetD rec f) else rowGet acc f := by
  induction fns with
  | nil => intro acc f; simp
  | cons f' rest ih =>
    intro acc f
    rw [List.foldl_cons, ih]
    by_cases hmem : f ∈ rest
    · rw [if_pos hmem, if_pos (List.mem_cons_of_mem f' hmem)]
    · rw [if_neg hmem]
      by_cases hf : f = f'
      · subst hf
        rw [if_pos (List.mem_cons_self f rest)]
        cases hr : rowGet rec f with
        | some v => simpa [rowGetD, hr] using rowGet_rowSet_self acc f v
        | none => simpa [rowGetD, hr] using rowGet_rowSet_self acc f PyVal.vNone
      · have hcond : ¬(f ∈ f' :: rest) := by
          intro hin
          rcases List.mem_cons.1 hin with h1 | h1
          · exact hf h1
          · exact hmem h1
        rw [if_neg hcond]
        cases hr : rowGet rec f' with
        | some v => simpa using rowGet_rowSet_ne acc f' f v hf
        | none => simpa using rowGet_rowSet_ne acc f' f PyVal.vNone hf

theorem rowKeys_rowSet (r : Row) (k : String) (v : PyVal) :
    rowKeys (rowSet r k v) =
      if k ∈ rowKeys r then rowKeys r else rowKeys r ++ [k] := by
  induction r with
  | nil => simp [rowSet, rowKeys]
  | cons p rest ih =>
    rcases p with ⟨pk, pv⟩
    by_cases h : pk = k
    · subst h
      simp [rowSet, rowKeys]
    · have hset : rowSet ((pk, pv) :: rest) k v = (pk, pv) :: rowSet rest k v := by
        simp [rowSet, h]
      have hk1 : rowKeys ((pk, pv) :: rowSet rest k v) = pk :: rowKeys (rowSet rest k v) := rfl
      have hk2 : rowKeys ((pk, pv) :: rest) = pk :: rowKeys rest := rfl
      rw [hset, hk1, hk2, ih]
      by_cases h2 : k ∈ rowKeys rest
      · rw [if_pos h2, if_pos (List.mem_cons_of_mem pk h2)]
      · have hnot : ¬k ∈ pk :: rowKeys rest := by
          intro hin
          rcases List.mem_cons.1 hin with h3 | h3
          · exact h h3.symm
          · exact h2 h3
        rw [if_neg h2, if_neg hnot]
        rfl

theorem nodup_rowKeys_rowSet (r : Row) (k : String) (v : PyVal)
    (h : (rowKeys r).Nodup) : (rowKeys (rowSet r k v)).Nodup := by
  rw [rowKeys_rowSet]
  by_cases h2 : k ∈ rowKeys r
  · rwa [if_pos h2]
  · rw [if_neg h2]
    exact List.Nodup.append h (List.nodup_singleton k) (by simpa using h2)

theorem nodup_read_fold (fns : List String) (rec : Row) :
    ∀ (acc : Row), (rowKeys acc).Nodup →
      (rowKeys (fns.foldl
        (fun row f' =>
          match rowGet rec f' with
          | some v => rowSet row f' v
          | none => rowSet row f' PyVal.vNone) acc)).Nodup := by
  induction fns with
  | nil => intro acc h; simpa using h
  | cons f' rest ih =>
    intro acc h
    rw [List.foldl_cons]
    apply ih
    cases hr : rowGet rec f' with
    | some v => simpa [hr] using nodup_rowKeys_rowSet acc f' v h
    | none => simpa [hr] using nodup_rowKeys_rowSet acc f' PyVal.vNone h

/-- A row with distinct keys realigned to its own key list is unchanged. -/
theorem self_align (r : Row) (h : (rowKeys r).Nodup) :
    (rowKeys r).map (fun c => (c, rowGetD r c)) = r := by
  induction r with
  | nil => rfl
  | cons p rest ih =>
    rcases p with ⟨k, v⟩
    have hcons : rowKeys ((k, v) :: rest) = k :: rowKeys rest := rfl
    rw [hcons] at h ⊢
    rw [List.nodup_cons] at h
    rw [List.map_cons]
    have h1 : rowGetD ((k, v) :: rest) k = v := by simp [rowGetD, rowGet]
    rw [h1]
    have h2 : List.map (fun c => (c, rowGetD ((k, v) :: rest) c)) (rowKeys rest) =
        List.map (fun c => (c, rowGetD rest c)) (rowKeys rest) := by
      apply List.map_congr_left
      intro c hc
      have hck : ¬(k = c) := fun he => h.1 (he ▸ hc)
      simp [rowGetD, rowGet, hck]
    rw [h2, ih h.2]

/-- `pd.DataFrame([row])` for a single dict-shaped row with distinct keys. -/
theorem mkFrame_single (r : Row) (h : (rowKeys r).Nodup) :
    mkFrame [r] = ⟨rowKeys r, [r]⟩ := by
  unfold mkFrame
  have hcols : ([] : List String) ++ (rowKeys r).filter (fun k => !([] : List String).contains k)
      = rowKeys r := by simp
  simp only [List.foldl_cons, List.foldl_nil, hcols, List.map_cons, List.map_nil]
  rw [self_align r h]

/-- The last row of a list whose entity key is `k` (the one whose write
survives the per-row loop). -/
def lastRowKey (jks : List String) (k : String) : List Row → Option Row
  | [] => none
  | r :: rs =>
    match lastRowKey jks k rs with
    | some r2 => some r2
    | none => if create_entity_key r jks = k then some r else none

theorem writeRows_fst_get (jks fns : List String) (ts : Int) :
    ∀ (rows : List Row) (init : FMap Row × FMap Int) (k : String),
      (writeRows jks fns ts init rows).1 k =
        match lastRowKey jks k rows with
        | some r => some (buildRecord fns r)
        | none => init.1 k := by
  intro rows
  induction rows with
  | nil => intro init k; rfl
  | cons r rs ih =>
    intro init k
    have hstep : writeRows jks fns ts init (r :: rs) =
        writeRows jks fns ts
          (fmSet init.1 (create_entity_key r jks) (buildRecord fns r),
           fmSet init.2 (create_entity_key r jks) ts) rs := rfl
    rw [hstep, ih]
    cases hl : lastRowKey jks k rs with
    | some r2 => simp [lastRowKey, hl]
    | none =>
      simp only [lastRowKey, hl, fmSet]
      by_cases hk : create_entity_key r jks = k
      · rw [if_pos hk, if_pos hk.symm]
      · rw [if_neg hk, if_neg (fun he => hk he.symm)]

theorem writeRows_snd_get (jks fns : List String) (ts : Int) :
    ∀ (rows : List Row) (init : FMap Row × FMap Int) (k : String),
      (writeRows jks fns ts init rows).2 k =
        match lastRowKey jks k rows with
        | some _ => some ts
        | none => init.2 k := by
  intro rows
  induction rows with
  | nil => intro init k; rfl
  | cons r rs ih =>
    intro init k
    have hstep : writeRows jks fns ts init (r :: rs) =
        writeRows jks fns ts
          (fmSet init.1 (create_entity_key r jks) (buildRecord fns r),
           fmSet init.2 (create_entity_key r jks) ts) rs := rfl
    rw [hstep, ih]
    cases hl : lastRowKey jks k rs with
    | some r2 => simp [lastRowKey, hl]
    | none =>
      simp only [lastRowKey, hl, fmSet]
      by_cases hk : create_entity_key r jks = k
      · rw [if_pos hk, if_pos hk.symm]
      · rw [if_neg hk, if_neg (fun he => hk he.symm)]

theorem lastRowKey_none (jks : List String) (k : String) :
    ∀ (l : List Row), (∀ r ∈ l, create_entity_key r jks ≠ k) →
      lastRowKey jks k l = none := by
  intro l
  induction l with
  | nil => intro _; rfl
  | cons r rs ih =>
    intro h
    have h1 : lastRowKey jks k rs = none :=
      ih (fun r2 hr2 => h r2 (List.mem_cons_of_mem r hr2))
    simp [lastRowKey, h1, h r (List.mem_cons_self r rs)]

theorem lastRowKey_of_split (jks : List String) (k : String) (r : Row)
    (hk : create_entity_key r jks = k) :
    ∀ (l1 l2 : List Row), (∀ r2 ∈ l2, create_entity_key r2 jks ≠ k) →
      lastRowKey jks k (l1 ++ r :: l2) = some r := by
  intro l1
  induction l1 with
  | nil =>
    intro l2 h2
    simp [lastRowKey, lastRowKey_none jks k l2 h2, hk]
  | cons a rest ih =>
    intro l2 h2
    have h1 : lastRowKey jks k (rest ++ r :: l2) = some r := ih l2 h2
    simp [lastRowKey, h1]

/-- Inverting `validate_feature_data ... = none`. -/
theorem validate_feature_data_none (fv : FeatureView) (df : Frame)
    (h : validate_feature_data fv df = none) :
    (∀ jk ∈ fv.get_join_keys, df.cols.contains jk = true) ∧
    (∀ f ∈ fv.get_feature_names, df.cols.contains f = true) := by
  unfold validate_feature_data at h
  cases h1 : fv.get_join_keys.find? (fun jk => !df.cols.contains jk) with
  | some jk =>
    simp only [h1] at h
    exact Option.noConfusion h
  | none =>
    simp only [h1] at h
    have hjk : ∀ jk ∈ fv.get_join_keys, df.cols.contains jk = true := by
      intro jk hjk
      have := List.find?_eq_none.1 h1 jk hjk
      simpa using this
    refine ⟨hjk, ?_⟩
    have hfind : fv.get_feature_names.find? (fun f => !df.cols.contains f) = none := by
      rcases hts : fv.source.timestamp_field with _ | tf
      · simp only [hts] at h
        cases h2 : fv.get_feature_names.find? (fun f => !df.cols.contains f) with
        | some f =>
          simp only [h2] at h
          exact Option.noConfusion h
        | none => rfl
      · simp only [hts] at h
        by_cases hc : df.cols.contains tf = true
        · rw [if_pos hc] at h
          cases h2 : fv.get_feature_names.find? (fun f => !df.cols.contains f) with
          | some f =>
            simp only [h2] at h
            exact Option.noConfusion h
          | none => rfl
        · rw [if_neg hc] at h
          exact Option.noConfusion h
    intro f hf
    have := List.find?_eq_none.1 hfind f hf
    simpa using this

/-- Inverting `validate_entity_rows ... = none`, and its converse. -/
theorem validate_entity_rows_from_none (jks : List String) :
    ∀ (i : Nat) (rows : List Row),
      (∀ r ∈ rows, ∀ jk ∈ jks, (rowGet r jk).isSome = true) →
      validate_entity_rows_from jks i rows = none := by
  intro i rows
  induction rows generalizing i with
  | nil => intro _; rfl
  | cons r rest ih =>
    intro h
    have h1 : jks.find? (fun jk => (rowGet r jk).isNone) = none := by
      apply List.find?_eq_none.2
      intro jk hjk
      have := h r (List.mem_cons_self r rest) jk hjk
      simp [Option.isNone, Option.isSome] at this ⊢
      cases hg : rowGet r jk with
      | none => rw [hg] at this; simp at this
      | some v => simp
    simp only [validate_entity_rows_from, h1]
    exact ih (i + 1) (fun r2 hr2 => h r2 (List.mem_cons_of_mem r hr2))

theorem validate_entity_rows_none (fv : FeatureView) (entity_rows : List Row)
    (h : ∀ r ∈ entity_rows, ∀ jk ∈ fv.get_join_keys, (rowGet r jk).isSome = true) :
    validate_entity_rows fv entity_rows = none :=
  validate_entity_rows_from_none fv.get_join_keys 0 entity_rows h

/-- Reading a view that has no records in the store returns the zero-row
frame with the join-key and requested-feature columns. -/
theorem read_features_view_absent (fv : FeatureView) (entity_rows : List Row)
    (feature_names : Option (List String)) (s : OnlineState)
    (habs : s.features fv.name = none)
    (hrows : ∀ r ∈ entity_rows, ∀ jk ∈ fv.get_join_keys, (rowGet r jk).isSome = true) :
    read_features fv entity_rows feature_names s =
      Except.ok ⟨fv.get_join_keys ++ feature_names.getD fv.get_feature_names, []⟩ := by
  unfold read_features
  rw [validate_entity_rows_none fv entity_rows hrows, habs]

/-- Claim C10: `readFeatures` on a view for which the store holds no
records (never written, or cleared) returns a zero-row table whose columns
are the view's join keys followed by the requested feature names,
regardless of how many (well-formed) entity rows were supplied, and raises
no exception. -/
theorem c10_read_absent_view (fv : FeatureView) (entity_rows : List Row)
    (feature_names : Option (List String)) (s : OnlineState)
    (habs : s.features fv.name = none)
    (hrows : ∀ r ∈ entity_rows, ∀ jk ∈ fv.get_join_keys, (rowGet r jk).isSome = true) :
    read_features fv entity_rows feature_names s =
      Except.ok ⟨fv.get_join_keys ++ feature_names.getD fv.get_feature_names, []⟩ :=
  read_features_view_absent fv entity_rows feature_names s habs hrows

/-- Witness for C10: reading three entity rows from a fresh store. -/
theorem c10_read_absent_view_witness :
    read_features driverViewTwo
      [[("driver_id", PyVal.vInt 1001)], [("driver_id", PyVal.vInt 1002)],
       [("driver_id", PyVal.vInt 1003)]] none OnlineState.empty =
      Except.ok ⟨["driver_id", "conv_rate"], []⟩ :=
  c10_read_absent_view driverViewTwo _ none OnlineState.empty rfl (by decide)

/-- The frame written in the online-store fixtures: driver 1001 with
conv_rate 80. -/
def driverWriteDf : Frame :=
  ⟨["driver_id", "conv_rate", "event_timestamp"],
   [[("driver_id", PyVal.vInt 1001), ("conv_rate", PyVal.vInt 80),
     ("event_timestamp", PyVal.vTime 1)]]⟩

/-- Store state after writing `driverWriteDf` into the `driver_stats` view. -/
def writtenState : OnlineState :=
  (write_features driverViewTwo driverWriteDf (some 5) 0 OnlineState.empty).1

/-- Claim C5 counterexample: the claim says delete-then-read yields a
result in which every requested feature is null for every entity row.
Before the delete the read returns one row carrying the stored value, but
after `deleteFeatures` the read returns a zero-row frame: the supplied
entity row is absent from the result, so the result does not carry a null
row per entity row. -/
theorem c5_counterexample :
    (∃ fr, read_features driverViewTwo [[("driver_id", PyVal.vInt 1001)]] none
        writtenState = Except.ok fr ∧ fr.rows.length = 1) ∧
    ¬(∃ fr, read_features driverViewTwo [[("driver_id", PyVal.vInt 1001)]] none
        (delete_features driverViewTwo writtenState) = Except.ok fr ∧
      fr.rows.length = 1) := by
  constructor
  · exact ⟨⟨["driver_id", "conv_rate"],
      [[("driver_id", PyVal.vInt 1001), ("conv_rate", PyVal.vInt 80)]]⟩, rfl, rfl⟩
  · rintro ⟨fr, h1, h2⟩
    have h0 : read_features driverViewTwo [[("driver_id", PyVal.vInt 1001)]] none
        (delete_features driverViewTwo writtenState) =
        Except.ok ⟨["driver_id", "conv_rate"], []⟩ := rfl
    rw [h0] at h1
    cases h1
    simp at h2

/-- Claim C5 (amended): `deleteFeatures` followed by `readFeatures` on the
same view returns the zero-row frame with the join-key and
requested-feature columns — no entity rows at all, and in particular never
a value stored before the delete. -/
theorem c5_delete_then_read (fv : FeatureView) (entity_rows : List Row)
    (feature_names : Option (List String)) (s : OnlineState)
    (hrows : ∀ r ∈ entity_rows, ∀ jk ∈ fv.get_join_keys, (rowGet r jk).isSome = true) :
    read_features fv entity_rows feature_names (delete_features fv s) =
      Except.ok ⟨fv.get_join_keys ++ feature_names.getD fv.get_feature_names, []⟩ := by
  apply read_features_view_absent
  · simp [delete_features, fmErase]
  · exact hrows

/-- Witness for C5: deleting the written fixture view and reading it back
yields the zero-row frame. -/
theorem c5_delete_then_read_witness :
    read_features driverViewTwo [[("driver_id", PyVal.vInt 1001)]] none
      (delete_features driverViewTwo writtenState) =
      Except.ok ⟨["driver_id", "conv_rate"], []⟩ :=
  c5_delete_then_read driverViewTwo _ none writtenState (by decide)

/-- A write that reports no error passed validation. -/
theorem write_ok_validate (fv : FeatureView) (df : Frame) (tsArg : Option Int)
    (now : Int) (s : OnlineState)
    (h : (write_features fv df tsArg now s).2 = none) :
    validate_feature_data fv df = none := by
  unfold write_features at h
  cases hv : validate_feature_data fv df with
  | some e => rw [hv] at h; exact Option.noConfusion h
  | none => rfl

/-- The state produced by a successful `write_features`. -/
theorem write_features_state (fv : FeatureView) (df : Frame) (tsArg : Option Int)
    (now : Int) (s : OnlineState) (hv : validate_feature_data fv df = none) :
    write_features fv df tsArg now s =
      (⟨fmSet s.features fv.name
          (writeRows fv.get_join_keys fv.get_feature_names (tsArg.getD now)
            (if (s.features fv.name).isSome then
              ((s.features fv.name).getD fmEmpty, (s.timestamps fv.name).getD fmEmpty)
            else (fmEmpty, fmEmpty)) df.rows).1,
        fmSet s.timestamps fv.name
          (writeRows fv.get_join_keys fv.get_feature_names (tsArg.getD now)
            (if (s.features fv.name).isSome then
              ((s.features fv.name).getD fmEmpty, (s.timestamps fv.name).getD fmEmpty)
            else (fmEmpty, fmEmpty)) df.rows).2⟩, none) := by
  unfold write_features
  rw [hv]

theorem fmSet_self {α : Type} (m : FMap α) (k : String) (v : α) :
    fmSet m k v k = some v := by simp [fmSet]

/-- Reading a single entity row whose record is present in the store. -/
theorem read_features_single_found (fv : FeatureView) (er : Row) {fm : FMap Row}
    {rec : Row} (s' : OnlineState)
    (hval : validate_entity_rows fv [er] = none)
    (hfm : s'.features fv.name = some fm)
    (hrec : fm (create_entity_key er fv.get_join_keys) = some rec) :
    read_features fv [er] none s' =
      Except.ok (mkFrame [fv.get_feature_names.foldl
        (fun row f =>
          match rowGet rec f with
          | some v => rowSet row f v
          | none => rowSet row f PyVal.vNone) er]) := by
  unfold read_features
  simp only [hval, hfm, hrec, List.map_cons, List.map_nil, Option.getD_none]

/-- Reading a single entity row whose key is absent from the view's map. -/
theorem read_features_single_absent (fv : FeatureView) (er : Row) {fm : FMap Row}
    (s' : OnlineState)
    (hval : validate_entity_rows fv [er] = none)
    (hfm : s'.features fv.name = some fm)
    (hrec : fm (create_entity_key er fv.get_join_keys) = none) :
    read_features fv [er] none s' =
      Except.ok (mkFrame [fv.get_feature_names.foldl
        (fun row f => rowSet row f PyVal.vNone) er]) := by
  unfold read_features
  simp only [hval, hfm, hrec, List.map_cons, List.map_nil, Option.getD_none]

/-- Claim C4: after `writeFeatures`, a `readFeatures` with an entity row
carrying the same join-key values returns exactly the feature values of
the written row (the last row of the batch with that entity key), and
reading an entity key that was never written returns null for every
requested feature rather than raising an exception. -/
theorem c4_write_then_read (fv : FeatureView) (df : Frame) (tsArg : Option Int)
    (now : Int) (s : OnlineState) :
    ((write_features fv df tsArg now s).2 = none →
      ∀ l1 r l2 er, df.rows = l1 ++ r :: l2 →
        (∀ row ∈ df.rows, rowKeys row = df.cols) →
        (∀ r2 ∈ l2, create_entity_key r2 fv.get_join_keys ≠
          create_entity_key r fv.get_join_keys) →
        (∀ jk ∈ fv.get_join_keys, rowGet er jk = rowGet r jk) →
        (rowKeys er).Nodup →
        ∃ fr, read_features fv [er] none (write_features fv df tsArg now s).1 =
            Except.ok fr ∧ fr.rows.length = 1 ∧
          ∀ f ∈ fv.get_feature_names, ∀ row ∈ fr.rows, rowGet row f = rowGet r f) ∧
    ((write_features fv df tsArg now s).2 = none →
      s.features fv.name = none →
      ∀ er2, (∀ r2 ∈ df.rows, create_entity_key r2 fv.get_join_keys ≠
          create_entity_key er2 fv.get_join_keys) →
        (∀ jk ∈ fv.get_join_keys, (rowGet er2 jk).isSome = true) →
        (rowKeys er2).Nodup →
        ∃ fr, read_features fv [er2] none (write_features fv df tsArg now s).1 =
            Except.ok fr ∧ fr.rows.length = 1 ∧
          ∀ f ∈ fv.get_feature_names, ∀ row ∈ fr.rows,
            rowGet row f = some PyVal.vNone) := by
  constructor
  · intro hw l1 r l2 er hsplit hwf hlast hagree hnodup
    have hv := write_ok_validate fv df tsArg now s hw
    have hcols := validate_feature_data_none fv df hv
    have hrmem : r ∈ df.rows := by
      rw [hsplit]
      exact List.mem_append_right l1 (List.mem_cons_self r l2)
    have hrkeys : rowKeys r = df.cols := hwf r hrmem
    have hrsome : ∀ jk ∈ fv.get_join_keys, (rowGet r jk).isSome = true := by
      intro jk hjk
      rw [rowGet_isSome_iff, hrkeys]
      simpa using hcols.1 jk hjk
    have hersome : ∀ jk ∈ fv.get_join_keys, (rowGet er jk).isSome = true := by
      intro jk hjk
      rw [hagree jk hjk]
      exact hrsome jk hjk
    have hfsome : ∀ f ∈ fv.get_feature_names, (rowGet r f).isSome = true := by
      intro f hf
      rw [rowGet_isSome_iff, hrkeys]
      simpa using hcols.2 f hf
    have hval : validate_entity_rows fv [er] = none :=
      validate_entity_rows_none fv [er]
        (by intro r2 hr2 jk hjk; rw [List.mem_singleton.1 hr2]; exact hersome jk hjk)
    have hkeq : create_entity_key er fv.get_join_keys =
        create_entity_key r fv.get_join_keys :=
      create_entity_key_congr fv.get_join_keys hagree
    have hkey : lastRowKey fv.get_join_keys (create_entity_key r fv.get_join_keys)
        df.rows = some r := by
      rw [hsplit]
      exact lastRowKey_of_split fv.get_join_keys _ r rfl l1 l2 hlast
    have hfm : (write_features fv df tsArg now s).1.features fv.name =
        some (writeRows fv.get_join_keys fv.get_feature_names (tsArg.getD now)
          (if (s.features fv.name).isSome then
            ((s.features fv.name).getD fmEmpty, (s.timestamps fv.name).getD fmEmpty)
          else (fmEmpty, fmEmpty)) df.rows).1 := by
      rw [write_features_state fv df tsArg now s hv]
      exact fmSet_self _ _ _
    have hrec : (writeRows fv.get_join_keys fv.get_feature_names (tsArg.getD now)
        (if (s.features fv.name).isSome then
          ((s.features fv.name).getD fmEmpty, (s.timestamps fv.name).getD fmEmpty)
        else (fmEmpty, fmEmpty)) df.rows).1
        (create_entity_key er fv.get_join_keys) =
        some (buildRecord fv.get_feature_names r) := by
      rw [hkeq, writeRows_fst_get, hkey]
    have hread := read_features_single_found fv er
      ((write_features fv df tsArg now s).1) hval hfm hrec
    have hnodup2 := nodup_read_fold fv.get_feature_names
      (buildRecord fv.get_feature_names r) er hnodup
    refine ⟨_, hread, ?_, ?_⟩
    · rw [mkFrame_single _ hnodup2]
      rfl
    · intro f hf row hrow
      rw [mkFrame_single _ hnodup2] at hrow
      rcases List.mem_singleton.1 hrow with rfl
      rw [rowGet_read_fold, if_pos hf]
      have hb : rowGet (buildRecord fv.get_feature_names r) f = rowGet r f := by
        rw [rowGet_buildRecord, if_pos ⟨hf, hfsome f hf⟩]
      cases hg : rowGet r f with
      | some v => rw [rowGetD, hb, hg]; rfl
      | none =>
        exfalso
        have hz := hfsome f hf
        rw [hg] at hz
        exact Bool.noConfusion hz
  · intro hw habs er2 hnotin hersome hnodup
    have hv := write_ok_validate fv df tsArg now s hw
    have hval : validate_entity_rows fv [er2] = none :=
      validate_entity_rows_none fv [er2]
        (by intro r2 hr2 jk hjk; rw [List.mem_singleton.1 hr2]; exact hersome jk hjk)
    have hfm : (write_features fv df tsArg now s).1.features fv.name =
        some (writeRows fv.get_join_keys fv.get_feature_names (tsArg.getD now)
          (if (s.features fv.name).isSome then
            ((s.features fv.name).getD fmEmpty, (s.timestamps fv.name).getD fmEmpty)
          else (fmEmpty, fmEmpty)) df.rows).1 := by
      rw [write_features_state fv df tsArg now s hv]
      exact fmSet_self _ _ _
    have hinit : (if (s.features fv.name).isSome then
        ((s.features fv.name).getD fmEmpty, (s.timestamps fv.name).getD fmEmpty)
      else (fmEmpty, fmEmpty)) = ((fmEmpty : FMap Row), (fmEmpty : FMap Int)) := by
      rw [habs]
      rfl
    have hrec : (writeRows fv.get_join_keys fv.get_feature_names (tsArg.getD now)
        (if (s.features fv.name).isSome then
          ((s.features fv.name).getD fmEmpty, (s.timestamps fv.name).getD fmEmpty)
        else (fmEmpty, fmEmpty)) df.rows).1
        (create_entity_key er2 fv.get_join_keys) = none := by
      rw [writeRows_fst_get,
        lastRowKey_none fv.get_join_keys (create_entity_key er2 fv.get_join_keys)
          df.rows hnotin, hinit]
      rfl
    have hread := read_features_single_absent fv er2
      ((write_features fv df tsArg now s).1) hval hfm hrec
    have hnodup2 : (rowKeys (fv.get_feature_names.foldl
        (fun row f => rowSet row f PyVal.vNone) er2)).Nodup :=
      nodup_read_fold fv.get_feature_names [] er2 hnodup
    refine ⟨_, hread, ?_, ?_⟩
    · rw [mkFrame_single _ hnodup2]
      rfl
    · intro f hf row hrow
      rw [mkFrame_single _ hnodup2] at hrow
      rcases List.mem_singleton.1 hrow with rfl
      calc rowGet (List.foldl (fun row f => rowSet row f PyVal.vNone) er2
              fv.get_feature_names) f
          = if f ∈ fv.get_feature_names then some (rowGetD [] f) else rowGet er2 f :=
            rowGet_read_fold fv.get_feature_names [] er2 f
        _ = some PyVal.vNone := by rw [if_pos hf]; rfl

def writtenRow : Row :=
  [("driver_id", PyVal.vInt 1001), ("conv_rate", PyVal.vInt 80),
   ("event_timestamp", PyVal.vTime 1)]

/-- Witness for C4: write driver 1001, read it back (value 80 returned),
and read the never-written driver 9999 (null returned, no exception). -/
theorem c4_write_then_read_witness :
    (∃ fr, read_features driverViewTwo [[("driver_id", PyVal.vInt 1001)]] none
        (write_features driverViewTwo driverWriteDf (some 5) 0 OnlineState.empty).1 =
        Except.ok fr ∧ fr.rows.length = 1 ∧
      ∀ f ∈ driverViewTwo.get_feature_names, ∀ row ∈ fr.rows,
        rowGet row f = rowGet writtenRow f) ∧
    (∃ fr, read_features driverViewTwo [[("driver_id", PyVal.vInt 9999)]] none
        (write_features driverViewTwo driverWriteDf (some 5) 0 OnlineState.empty).1 =
        Except.ok fr ∧ fr.rows.length = 1 ∧
      ∀ f ∈ driverViewTwo.get_feature_names, ∀ row ∈ fr.rows,
        rowGet row f = some PyVal.vNone) :=
  ⟨(c4_write_then_read driverViewTwo driverWriteDf (some 5) 0 OnlineState.empty).1
      rfl [] writtenRow [] [("driver_id", PyVal.vInt 1001)] rfl (by decide) (by decide)
      (by decide) (by decide),
   (c4_write_then_read driverViewTwo driverWriteDf (some 5) 0 OnlineState.empty).2
      rfl rfl [("driver_id", PyVal.vInt 9999)] (by decide) (by decide) (by decide)⟩

theorem fmSet_fmSet {α : Type} (m : FMap α) (k : String) (v1 v2 : α) :
    fmSet (fmSet m k v1) k v2 = fmSet m k v2 := by
  funext k2
  unfold fmSet
  by_cases h : k2 = k
  · rw [if_pos h, if_pos h]
  · rw [if_neg h, if_neg h, if_neg h]

/-- The per-row write loop is idempotent: replaying the same rows on top of
its own result changes nothing. -/
theorem writeRows_idem (jks fns : List String) (ts : Int) (rows : List Row)
    (init : FMap Row × FMap Int) :
    writeRows jks fns ts (writeRows jks fns ts init rows) rows =
      writeRows jks fns ts init rows := by
  have h1 : (writeRows jks fns ts (writeRows jks fns ts init rows) rows).1 =
      (writeRows jks fns ts init rows).1 := by
    funext k
    rw [writeRows_fst_get, writeRows_fst_get]
    cases hl : lastRowKey jks k rows with
    | some r => rfl
    | none => rfl
  have h2 : (writeRows jks fns ts (writeRows jks fns ts init rows) rows).2 =
      (writeRows jks fns ts init rows).2 := by
    funext k
    rw [writeRows_snd_get, writeRows_snd_get]
    cases hl : lastRowKey jks k rows with
    | some r => rfl
    | none => rfl
  exact Prod.ext h1 h2

/-- A successful write on a state whose maps already hold the view. -/
theorem write_features_present_state (fv : FeatureView) (df : Frame)
    (tsArg : Option Int) (now : Int) (m1 : FMap (FMap Row)) (m2 : FMap (FMap Int))
    (U1 : FMap Row) (U2 : FMap Int) (hv : validate_feature_data fv df = none)
    (h1 : m1 fv.name = some U1) (h2 : m2 fv.name = some U2) :
    write_features fv df tsArg now ⟨m1, m2⟩ =
      (⟨fmSet m1 fv.name
          (writeRows fv.get_join_keys fv.get_feature_names (tsArg.getD now)
            (U1, U2) df.rows).1,
        fmSet m2 fv.name
          (writeRows fv.get_join_keys fv.get_feature_names (tsArg.getD now)
            (U1, U2) df.rows).2⟩, none) := by
  unfold write_features
  rw [hv]
  simp only [h1, h2, Option.isSome_some, if_true, Option.getD_some]

/-- Claim C8: `writeFeatures` is idempotent — writing the identical frame
with the identical timestamp twice leaves the store in the same state (and
the same result) as writing it once. -/
theorem c8_write_idempotent (fv : FeatureView) (df : Frame) (tsArg : Option Int)
    (now : Int) (s : OnlineState) :
    write_features fv df tsArg now (write_features fv df tsArg now s).1 =
      write_features fv df tsArg now s := by
  cases hv : validate_feature_data fv df with
  | some e =>
    have hfail : write_features fv df tsArg now s = (s, some e) := by
      unfold write_features
      rw [hv]
    rw [hfail]
    exact hfail
  | none =>
    have hU := write_features_state fv df tsArg now s hv
    rw [hU]
    show write_features fv df tsArg now
      ⟨fmSet s.features fv.name
          (writeRows fv.get_join_keys fv.get_feature_names (tsArg.getD now)
            (if (s.features fv.name).isSome then
              ((s.features fv.name).getD fmEmpty, (s.timestamps fv.name).getD fmEmpty)
            else (fmEmpty, fmEmpty)) df.rows).1,
        fmSet s.timestamps fv.name
          (writeRows fv.get_join_keys fv.get_feature_names (tsArg.getD now)
            (if (s.features fv.name).isSome then
              ((s.features fv.name).getD fmEmpty, (s.timestamps fv.name).getD fmEmpty)
            else (fmEmpty, fmEmpty)) df.rows).2⟩ = _
    rw [write_features_present_state fv df tsArg now _ _ _ _ hv
      (fmSet_self _ _ _) (fmSet_self _ _ _)]
    rw [show writeRows fv.get_join_keys fv.get_feature_names (tsArg.getD now)
        ((writeRows fv.get_join_keys fv.get_feature_names (tsArg.getD now)
            (if (s.features fv.name).isSome then
              ((s.features fv.name).getD fmEmpty, (s.timestamps fv.name).getD fmEmpty)
            else (fmEmpty, fmEmpty)) df.rows).1,
          (writeRows fv.get_join_keys fv.get_feature_names (tsArg.getD now)
            (if (s.features fv.name).isSome then
              ((s.features fv.name).getD fmEmpty, (s.timestamps fv.name).getD fmEmpty)
            else (fmEmpty, fmEmpty)) df.rows).2) df.rows =
        writeRows fv.get_join_keys fv.get_feature_names (tsArg.getD now)
          (if (s.features fv.name).isSome then
            ((s.features fv.name).getD fmEmpty, (s.timestamps fv.name).getD fmEmpty)
          else (fmEmpty, fmEmpty)) df.rows from
      writeRows_idem fv.get_join_keys fv.get_feature_names (tsArg.getD now) df.rows _]
    rw [fmSet_fmSet, fmSet_fmSet]

/-- Name resolution fails on the first unknown name, before anything else
runs. -/
theorem resolveViews_error (reg : Registry) :
    ∀ (names : List String), (∃ n ∈ names, registryGet reg n = none) →
      ∃ n2 ∈ names, registryGet reg n2 = none ∧
        resolveViews reg names = Except.error ("Feature view '" ++ n2 ++ "' not found") := by
  intro names
  induction names with
  | nil => rintro ⟨n, hn, _⟩; simp at hn
  | cons n rest ih =>
    rintro ⟨m, hm, hmiss⟩
    cases hr : registryGet reg n with
    | none =>
      exact ⟨n, List.mem_cons_self n rest, hr, by simp [resolveViews, hr]⟩
    | some fv =>
      have hrest : ∃ m2 ∈ rest, registryGet reg m2 = none := by
        rcases List.mem_cons.1 hm with h1 | h1
        · subst h1
          rw [hr] at hmiss
          exact Option.noConfusion hmiss
        · exact ⟨m, h1, hmiss⟩
      rcases ih hrest with ⟨n2, hn2, hmiss2, herr⟩
      exact ⟨n2, List.mem_cons_of_mem n hn2, hmiss2, by simp [resolveViews, hr, herr]⟩

/-- Claim C6: `materializeIncremental` and `materialize`, called with an
explicit view-name list containing a name absent from the registry, fail
with the registry's not-found error before any write to the online store
occurs — the returned store state is exactly the initial state. -/
theorem c6_materialize_unknown_view (reg : Registry) (start_date end_date : Int)
    (names : List String) (s : OnlineState) (n : String) (hn : n ∈ names)
    (hmiss : registryGet reg n = none) :
    ∃ n2 ∈ names, registryGet reg n2 = none ∧
      materialize_incremental reg end_date (some names) s =
        (s, some ("Feature view '" ++ n2 ++ "' not found")) ∧
      materialize reg start_date end_date (some names) s =
        (s, some ("Feature view '" ++ n2 ++ "' not found")) := by
  have hne : names.isEmpty = false := by
    cases names with
    | nil => simp at hn
    | cons a rest => rfl
  rcases resolveViews_error reg names ⟨n, hn, hmiss⟩ with ⟨n2, hn2, hmiss2, herr⟩
  refine ⟨n2, hn2, hmiss2, ?_, ?_⟩
  · unfold materialize_incremental
    simp only [hne, Bool.false_eq_true, if_false, herr]
  · unfold materialize
    simp only [hne, Bool.false_eq_true, if_false, herr]

/-- Witness for C6: materializing `["nope"]` against a registry holding
only `driver_stats` leaves the empty store untouched and reports the
missing view. -/
theorem c6_materialize_unknown_view_witness :
    ∃ n2 ∈ ["nope"], registryGet [driverViewTwo] n2 = none ∧
      materialize_incremental [driverViewTwo] 10 (some ["nope"]) OnlineState.empty =
        (OnlineState.empty, some ("Feature view '" ++ n2 ++ "' not found")) ∧
      materialize [driverViewTwo] 0 10 (some ["nope"]) OnlineState.empty =
        (OnlineState.empty, some ("Feature view '" ++ n2 ++ "' not found")) :=
  c6_materialize_unknown_view [driverViewTwo] 0 10 ["nope"] OnlineState.empty
    "nope" (by decide) (by decide)

theorem findFirstErr_none {α : Type} (f : α → Option String) :
    ∀ (l : List α), findFirstErr f l = none ↔ ∀ a ∈ l, f a = none := by
  intro l
  induction l with
  | nil => simp [findFirstErr]
  | cons a rest ih =>
    constructor
    · intro h
      cases hf : f a with
      | some e =>
        simp only [findFirstErr, hf] at h
        exact Option.noConfusion h
      | none =>
        simp only [findFirstErr, hf] at h
        intro b hb
        rcases List.mem_cons.1 hb with h1 | h1
        · rw [h1]; exact hf
        · exact (ih.1 h) b h1
    · intro h
      have hf : f a = none := h a (List.mem_cons_self a rest)
      simp only [findFirstErr, hf]
      exact ih.2 (fun b hb => h b (List.mem_cons_of_mem a hb))

theorem dedup_length_eq_iff {α : Type} [DecidableEq α] (l : List α) :
    l.dedup.length = l.length ↔ l.Nodup := by
  constructor
  · intro h
    have heq : l.dedup = l := (List.dedup_sublist l).eq_of_length h
    rw [← heq]
    exact List.nodup_dedup l
  · intro h
    rw [List.dedup_eq_self.2 h]

def svcDupEmptyName : FeatureService :=
  ⟨"", [FSMember.str "viewA:f1", FSMember.str "viewA:f1"]⟩

/-- Claim C9 counterexample: a service whose members resolve to a
duplicated reference list but whose name is empty fails validation with
the empty-name error, not the duplicate-reference error — the member and
name checks run before the duplicate check. -/
theorem c9_counterexample :
    get_feature_references svcDupEmptyName.features =
      Except.ok [⟨"viewA", "f1"⟩, ⟨"viewA", "f1"⟩] ∧
    feature_service_validate [] svcDupEmptyName =
      Except.error "FeatureService name cannot be empty" ∧
    "FeatureService name cannot be empty" ≠
      "Feature references must be unique within a FeatureService" :=
  ⟨rfl, rfl, by decide⟩

/-- Claim C9 (amended): when the resolved references contain a duplicate,
validation fails; it reports the duplicate-reference error provided the
name is non-empty and every member passes the member-validity checks that
run first.  Validation succeeds only when the resolved references are
pairwise distinct and every member is valid. -/
theorem c9_validate_duplicates (fsys : List String) (svc : FeatureService)
    (refs : List FeatureReference)
    (href : get_feature_references svc.features = Except.ok refs) :
    (svc.name ≠ "" →
      (∀ m ∈ svc.features, validateMember fsys m = none) →
      ¬refs.Nodup →
      feature_service_validate fsys svc =
        Except.error "Feature references must be unique within a FeatureService") ∧
    (feature_service_validate fsys svc = Except.ok () →
      refs.Nodup ∧ ∀ m ∈ svc.features, validateMember fsys m = none) := by
  constructor
  · intro hname hmem hnodup
    unfold feature_service_validate
    rw [if_neg hname]
    have hfe : svc.features.isEmpty = false := by
      cases hf : svc.features with
      | nil =>
        exfalso
        rw [hf] at href
        have hrefs : refs = [] := by
          have : (Except.ok [] : Except String (List FeatureReference)) =
              Except.ok refs := href
          exact (Except.ok.inj this).symm
        rw [hrefs] at hnodup
        exact hnodup List.nodup_nil
      | cons a rest => rfl
    simp only [hfe, Bool.false_eq_true, if_false]
    have hfind : findFirstErr (validateMember fsys) svc.features = none :=
      (findFirstErr_none (validateMember fsys) svc.features).2 hmem
    simp only [hfind, href]
    have hcond : (refs.map refStr).dedup.length ≠ (refs.map refStr).length := by
      intro heq
      have h1 : (refs.map refStr).Nodup := (dedup_length_eq_iff (refs.map refStr)).1 heq
      exact hnodup (List.Nodup.of_map refStr h1)
    rw [if_pos hcond]
  · intro hok
    unfold feature_service_validate at hok
    by_cases hname : svc.name = ""
    · rw [if_pos hname] at hok
      exact Except.noConfusion hok
    · rw [if_neg hname] at hok
      cases hfe : svc.features.isEmpty with
      | true =>
        rw [hfe] at hok
        simp only [if_true] at hok
        exact Except.noConfusion hok
      | false =>
        simp only [hfe, Bool.false_eq_true, if_false] at hok
        cases hfind : findFirstErr (validateMember fsys) svc.features with
        | some e =>
          simp only [hfind] at hok
          exact Except.noConfusion hok
        | none =>
          simp only [hfind, href] at hok
          by_cases hdup : (refs.map refStr).dedup.length ≠ (refs.map refStr).length
          · rw [if_pos hdup] at hok
            exact Except.noConfusion hok
          · have hnodup : (refs.map refStr).Nodup :=
              (dedup_length_eq_iff (refs.map refStr)).1 (not_ne_iff.1 hdup)
            exact ⟨hnodup.of_map, (findFirstErr_none (validateMember fsys) svc.features).1 hfind⟩

def svcDup : FeatureService :=
  ⟨"driver_features", [FSMember.str "viewA:f1", FSMember.str "viewA:f1"]⟩

def svcOk : FeatureService :=
  ⟨"driver_features", [FSMember.str "viewA:f1", FSMember.str "viewA:f2"]⟩

/-- Witness for C9: the duplicated service fails with the duplicate error;
the deduplicated one validates and its resolved references are distinct. -/
theorem c9_validate_duplicates_witness :
    feature_service_validate [] svcDup =
      Except.error "Feature references must be unique within a FeatureService" ∧
    ([(⟨"viewA", "f1"⟩ : FeatureReference), ⟨"viewA", "f2"⟩].Nodup ∧
      ∀ m ∈ svcOk.features, validateMember [] m = none) :=
  ⟨(c9_validate_duplicates [] svcDup [⟨"viewA", "f1"⟩, ⟨"viewA", "f1"⟩] rfl).1
      (by decide) (by decide) (by decide),
   (c9_validate_duplicates [] svcOk [⟨"viewA", "f1"⟩, ⟨"viewA", "f2"⟩] rfl).2 rfl⟩
